import Mathlib

/-
Verification of the rdma_exporter scrape pipeline
(internal/collector/collector.go), shallowly embedded in Lean 4.

Go maps are modelled as association lists with overwrite-on-insert
semantics; Go strings are Lean strings (rune iteration matches
`String.data`); uint64 / uint32 values are modelled as `Nat` with an
explicit `% 2 ^ 32` where Go arithmetic wraps.
-/

namespace RdmaExporter

/-- Association-list lookup, modelling Go map indexing `m[k]`. -/
def lookupA {α : Type} (l : List (String × α)) (k : String) : Option α :=
  match l with
  | [] => none
  | (k', v) :: t => if k = k' then some v else lookupA t k

/-- Remove every binding of a key (helper for map insertion). -/
def eraseA {α : Type} (l : List (String × α)) (k : String) : List (String × α) :=
  match l with
  | [] => []
  | (k', v) :: t => if k = k' then eraseA t k else (k', v) :: eraseA t k

/-- Association-list insertion, modelling Go map assignment `m[k] = v`
(overwrites any previous binding of `k`). -/
def insertA {α : Type} (l : List (String × α)) (k : String) (v : α) :
    List (String × α) :=
  (k, v) :: eraseA l k

/-- Go `unicode.ToLower` restricted to the ASCII range where the source
applies it: maps a code point to the one 32 positions later. -/
def goToLower (c : Char) : Char := Char.ofNat (c.toNat + 32)

/-- Per-rune loop body of `sanitizeStatName` (`first` is true exactly for
the first rune, mirroring the `i == 0` test in the Go `range` loop). -/
def sanitizeChars : Bool → List Char → List Char
  | _, [] => []
  | first, r :: rest =>
    let out : List Char :=
      if 'a' ≤ r ∧ r ≤ 'z' then [r]
      else if 'A' ≤ r ∧ r ≤ 'Z' then [goToLower r]
      else if '0' ≤ r ∧ r ≤ '9' then (if first then ['_', r] else [r])
      else if r = '_' then [r]
      else ['_']
    out ++ sanitizeChars false rest

/-- Trailing guard of `sanitizeStatName`: prefix `_` when the first byte
of the result is a digit (the result is ASCII, so byte = rune). -/
def leadingDigitGuard (res : String) : String :=
  match res.data with
  | [] => res
  | c :: _ => if '0' ≤ c ∧ c ≤ '9' then "_" ++ res else res

/-- Embedding of `sanitizeStatName` from internal/collector/collector.go. -/
def sanitizeStatName (stat : String) : String :=
  if stat = "" then "unknown"
  else
    let res := String.mk (sanitizeChars true stat.data)
    let res := if res = "" then "unknown" else res
    leadingDigitGuard res

structure MetricSpec where
  DocName : String
  Help : String
deriving DecidableEq

/-- UTF-8 encoding of one character (Go `[]byte(s)` byte sequence). -/
def utf8Bytes (c : Char) : List Nat :=
  let n := c.toNat
  if n < 128 then [n]
  else if n < 2048 then [192 + n / 64, 128 + n % 64]
  else if n < 65536 then
    [224 + n / 4096, 128 + (n / 64) % 64, 128 + n % 64]
  else
    [240 + n / 262144, 128 + (n / 4096) % 64, 128 + (n / 64) % 64,
      128 + n % 64]

/-- FNV-1a 32-bit hash over the UTF-8 bytes of a string, as computed by
`fnv32` via `hash/fnv` (arithmetic wraps at 2^32). -/
def fnv32 (s : String) : Nat :=
  s.data.foldl
    (fun h c =>
      (utf8Bytes c).foldl (fun h b => ((h ^^^ b) * 16777619) % 2 ^ 32) h)
    2166136261

/-- Lower-case hexadecimal digit, as printed by Go `%x`. -/
def hexChar (d : Nat) : Char :=
  if d < 10 then Char.ofNat (48 + d) else Char.ofNat (87 + d)

/-- Hexadecimal digits, most significant first (fuel-based structural
recursion; the fuel bound `n + 1` always suffices since the value is
divided by 16 at each step). -/
def hexRepAux : Nat → Nat → List Char
  | 0, _ => []
  | fuel + 1, n =>
    if n = 0 then [] else hexRepAux fuel (n / 16) ++ [hexChar (n % 16)]

/-- Hexadecimal digits of a positive number, most significant first. -/
def hexRep (n : Nat) : List Char := hexRepAux (n + 1) n

/-- Go `fmt.Sprintf("%x", n)`: minimal-width lower-case hexadecimal. -/
def toHex (n : Nat) : String :=
  if n = 0 then "0" else String.mk (hexRep n)

/-- Embedding of the `metricSpecs` table from
internal/collector/collector.go (a Go map literal; modelled as an
association list in source textual order). -/
def metricSpecs : List (String × MetricSpec) := [
  ("port_rcv_data", ⟨"port_rcv_data", "The total number of data octets, divided by 4 (counting in double words, 32 bits), received on all VLs from the port."⟩),
  ("port_rcv_packets", ⟨"port_rcv_packets", "Total number of packets (may include packets containing errors)."⟩),
  ("port_multicast_rcv_packets", ⟨"port_multicast_rcv_packets", "Total number of multicast packets, including multicast packets containing errors."⟩),
  ("port_unicast_rcv_packets", ⟨"port_unicast_rcv_packets", "Total number of unicast packets, including unicast packets containing errors."⟩),
  ("port_xmit_data", ⟨"port_xmit_data", "The total number of data octets, divided by 4, transmitted on all VLs from the port."⟩),
  ("port_xmit_packets", ⟨"port_xmit_packets", "Total number of packets transmitted on all VLs from this port (may include packets with errors)."⟩),
  ("port_multicast_xmit_packets", ⟨"port_multicast_xmit_packets", "Total number of multicast packets transmitted on all VLs from the port (may include multicast packets with errors)."⟩),
  ("port_unicast_xmit_packets", ⟨"port_unicast_xmit_packets", "Total number of unicast packets transmitted on all VLs from the port (may include unicast packets with errors)."⟩),
  ("port_rcv_switch_relay_errors", ⟨"port_rcv_switch_relay_errors", "Total number of packets received on the port that were discarded because they could not be forwarded by the switch relay."⟩),
  ("port_rcv_errors", ⟨"port_rcv_errors", "Total number of packets containing an error that were received on the port."⟩),
  ("port_rcv_constraint_errors", ⟨"port_rcv_constraint_errors", "Total number of packets received on the switch physical port that are discarded."⟩),
  ("local_link_integrity_errors", ⟨"local_link_integrity_errors", "Number of times that the count of local physical errors exceeded the threshold specified by LocalPhyErrors."⟩),
  ("port_xmit_wait", ⟨"port_xmit_wait", "Number of ticks during which the port had data to transmit but no data was sent during the entire tick."⟩),
  ("port_xmit_discards", ⟨"port_xmit_discards", "Total number of outbound packets discarded by the port because the port is down or congested."⟩),
  ("port_xmit_constraint_errors", ⟨"port_xmit_constraint_errors", "Total number of packets not transmitted from the switch physical port."⟩),
  ("port_rcv_remote_physical_errors", ⟨"port_rcv_remote_physical_errors", "Total number of packets marked with the EBP delimiter received on the port."⟩),
  ("symbol_error", ⟨"symbol_error", "Total number of minor link errors detected on one or more physical lanes."⟩),
  ("VL15_dropped", ⟨"VL15_dropped", "Number of incoming VL15 packets dropped due to resource limitations."⟩),
  ("link_error_recovery", ⟨"link_error_recovery", "Total number of times the Port Training state machine successfully completed the link error recovery process."⟩),
  ("link_downed", ⟨"link_downed", "Total number of times the Port Training state machine failed the link error recovery process and downed the link."⟩),
  ("duplicate_request", ⟨"duplicate_request", "Number of received packets. A duplicate request is a request that had been previously executed."⟩),
  ("implied_nak_seq_err", ⟨"implied_nak_seq_err", "Number of times the requester decided an ACK with a PSN larger than the expected PSN for an RDMA read or response."⟩),
  ("lifespan", ⟨"lifespan", "The maximum period in ms which defines the aging of the counter reads. Two consecutive reads within this period might return the same values."⟩),
  ("local_ack_timeout_err", ⟨"local_ack_timeout_err", "The number of times QP\x27s ack timer expired for RC, XRC, DCT QPs at the sender side. The QP retry limit was not exceeded, therefore it is still a recoverable error."⟩),
  ("np_cnp_sent", ⟨"np_cnp_sent", "The number of CNP packets sent by the Notification Point when it noticed congestion experienced in the RoCEv2 IP header (ECN bits). The counter was added in MLNX_OFED 4.1."⟩),
  ("np_ecn_marked_roce_packets", ⟨"np_ecn_marked_roce_packets", "The number of RoCEv2 packets received by the notification point which were marked for experiencing congestion (ECN bits were ‘11’ on the ingress RoCE traffic). The counter was added in MLNX_OFED 4.1."⟩),
  ("out_of_buffer", ⟨"out_of_buffer", "The number of drops that occurred due to lack of WQE for the associated QPs."⟩),
  ("out_of_sequence", ⟨"out_of_sequence", "The number of out-of-sequence packets received."⟩),
  ("packet_seq_err", ⟨"packet_seq_err", "The number of received NAK sequence error packets. The QP retry limit was not exceeded."⟩),
  ("req_cqe_error", ⟨"req_cqe_error", "The number of times requester detected CQEs completed with errors. Added in MLNX_OFED 4.1."⟩),
  ("req_cqe_flush_error", ⟨"req_cqe_flush_error", "The number of times requester detected CQEs completed with flushed errors. Added in MLNX_OFED 4.1."⟩),
  ("req_remote_access_errors", ⟨"req_remote_access_errors", "The number of times requester detected remote access errors. Added in MLNX_OFED 4.1."⟩),
  ("req_remote_invalid_request", ⟨"req_remote_invalid_request", "The number of times requester detected remote invalid request errors. Added in MLNX_OFED 4.1."⟩),
  ("resp_cqe_error", ⟨"resp_cqe_error", "The number of times responder detected CQEs completed with errors. Added in MLNX_OFED 4.1."⟩),
  ("resp_cqe_flush_error", ⟨"resp_cqe_flush_error", "The number of times responder detected CQEs completed with flushed errors. Added in MLNX_OFED 4.1."⟩),
  ("resp_local_length_error", ⟨"resp_local_length_error", "The number of times responder detected local length errors. Added in MLNX_OFED 4.1."⟩),
  ("resp_remote_access_errors", ⟨"resp_remote_access_errors", "The number of times responder detected remote access errors. Added in MLNX_OFED 4.1."⟩),
  ("rnr_nak_retry_err", ⟨"rnr_nak_retry_err", "The number of received RNR NAK packets. The QP retry limit was not exceeded."⟩),
  ("roce_adp_retrans", ⟨"roce_adp_retrans", "Counts the number of adaptive retransmissions for RoCE traffic. Added in MLNX_OFED rev 5.0-1.0.0.0 and kernel v5.6.0."⟩),
  ("roce_adp_retrans_to", ⟨"roce_adp_retrans_to", "Counts the number of times RoCE traffic reached timeout due to adaptive retransmission. Added in MLNX_OFED rev 5.0-1.0.0.0 and kernel v5.6.0."⟩),
  ("roce_slow_restart", ⟨"roce_slow_restart", "Counts the number of times RoCE slow restart was used. Added in MLNX_OFED rev 5.0-1.0.0.0 and kernel v5.6.0."⟩),
  ("roce_slow_restart_cnps", ⟨"roce_slow_restart_cnps", "Counts the number of times RoCE slow restart generated CNP packets. Added in MLNX_OFED rev 5.0-1.0.0.0 and kernel v5.6.0."⟩),
  ("roce_slow_restart_trans", ⟨"roce_slow_restart_trans", "Counts the number of times RoCE slow restart changed state to slow restart. Added in MLNX_OFED rev 5.0-1.0.0.0 and kernel v5.6.0."⟩),
  ("rp_cnp_handled", ⟨"rp_cnp_handled", "The number of CNP packets handled by the Reaction Point HCA to throttle the transmission rate. Added in MLNX_OFED 4.1."⟩),
  ("rp_cnp_ignored", ⟨"rp_cnp_ignored", "The number of CNP packets received and ignored by the Reaction Point HCA. This counter should not raise if RoCE Congestion Control was enabled in the network. If this counter rises, verify that ECN was enabled on the adapter. Added in MLNX_OFED 4.1."⟩),
  ("rx_atomic_requests", ⟨"rx_atomic_requests", "The number of received ATOMIC requests for the associated QPs."⟩),
  ("rx_dct_connect", ⟨"rx_dct_connect", "The number of received connection requests for the associated DCTs."⟩),
  ("rx_icrc_encapsulated", ⟨"rx_icrc_encapsulated", "The number of RoCE packets with ICRC errors. This counter was added in MLNX_OFED 4.4 and kernel 4.19."⟩),
  ("rx_read_requests", ⟨"rx_read_requests", "The number of received READ requests for the associated QPs."⟩),
  ("rx_write_requests", ⟨"rx_write_requests", "The number of received WRITE requests for the associated QPs."⟩)]

/-- Embedding of `buildMetricHelpByDocName`. -/
def buildMetricHelpByDocName : List (String × String) :=
  metricSpecs.foldl
    (fun acc p =>
      if p.2.DocName = "" ∨ p.2.Help = "" then acc
      else insertA acc p.2.DocName p.2.Help)
    []

/-- Embedding of the package-level `metricHelpByDocName` value. -/
def metricHelpByDocName : List (String × String) := buildMetricHelpByDocName

/-- Embedding of `metricDocHelp`. -/
def metricDocHelp (docName fallback : String) : String :=
  match lookupA metricHelpByDocName docName with
  | some help => help
  | none => fallback

/-- Fallback path of `canonicalDocName` (everything after the first
table lookup misses). -/
def canonicalFallback (stat : String) : String :=
  let sanitized := sanitizeStatName stat
  match lookupA metricSpecs sanitized with
  | some spec =>
    if spec.DocName ≠ "" then spec.DocName
    else if sanitized = "" then "unknown" else sanitized
  | none => if sanitized = "" then "unknown" else sanitized

/-- Embedding of `canonicalDocName`. -/
def canonicalDocName (stat : String) : String :=
  match lookupA metricSpecs stat with
  | some spec =>
    if spec.DocName ≠ "" then spec.DocName else canonicalFallback stat
  | none => canonicalFallback stat

/-- Descriptor value registered with the exposition library
(`prometheus.NewDesc`): fully-qualified name, help text, variable
label names. -/
structure Desc where
  fqName : String
  help : String
  variableLabels : List String
deriving DecidableEq

/-- Embedding of `metricEntry`. -/
structure MetricEntry where
  desc : Desc
  metricName : String
  stat : String
  docName : String
deriving DecidableEq

/-- One identifier family: the `entries` map keyed by metric name and
the raw-name `lookup` cache, as paired in `RdmaCollector`. -/
structure Registry where
  entries : List (String × MetricEntry)
  lookup : List (String × String)
deriving DecidableEq

def emptyRegistry : Registry := ⟨[], []⟩

/-- Embedding of `buildMetricName`. -/
def buildMetricName (docName : String)
    (existing : List (String × MetricEntry)) : String :=
  let base := sanitizeStatName docName
  let metricName := "rdma_" ++ base ++ "_total"
  match lookupA existing metricName with
  | some entry =>
    if entry.docName ≠ docName then
      "rdma_" ++ base ++ "_" ++ toHex (fnv32 docName) ++ "_total"
    else metricName
  | none => metricName

/-- Embedding of `(*RdmaCollector).metricDesc`, with the mutated maps
made explicit: returns the descriptor and the updated registry. -/
def metricDesc (stat docName fallback : String) (reg : Registry) :
    Desc × Registry :=
  let cached : Option Desc :=
    match lookupA reg.lookup stat with
    | some metricName => (lookupA reg.entries metricName).map (·.desc)
    | none => none
  match cached with
  | some d => (d, reg)
  | none =>
    let metricName := buildMetricName docName reg.entries
    let help := metricDocHelp docName fallback
    let desc : Desc := ⟨metricName, help, ["device", "port"]⟩
    let entry : MetricEntry := ⟨desc, metricName, stat, docName⟩
    (desc,
      ⟨insertA reg.entries metricName entry, insertA reg.lookup stat metricName⟩)

/-- Fallback help string used by `statMetricDesc`. -/
def statFallbackHelp : String := "RDMA port counter sourced from sysfs counters."

/-- Fallback help string used by `hwMetricDesc`. -/
def hwFallbackHelp : String :=
  "RDMA port hardware counter sourced from sysfs hw_counters."

/-- One descriptor resolution in a single family: the composition of
`canonicalDocName` and `metricDesc` as performed by `statMetricDesc` and
`hwMetricDesc`. -/
def resolve (stat fallback : String) (reg : Registry) : Desc × Registry :=
  metricDesc stat (canonicalDocName stat) fallback reg

/-- The identifier allocated on the fresh path of `metricDesc`. -/
def freshName (docName : String) (reg : Registry) : String :=
  buildMetricName docName reg.entries

/-- The descriptor built on the fresh path of `metricDesc`. -/
def freshDesc (docName fallback : String) (reg : Registry) : Desc :=
  ⟨freshName docName reg, metricDocHelp docName fallback,
    ["device", "port"]⟩

/-- The entry stored on the fresh path of `metricDesc`. -/
def freshEntry (stat docName fallback : String) (reg : Registry) :
    MetricEntry :=
  ⟨freshDesc docName fallback reg, freshName docName reg, stat, docName⟩

/-- The full result of the fresh path of `metricDesc`. -/
def freshResolve (stat docName fallback : String) (reg : Registry) :
    Desc × Registry :=
  (freshDesc docName fallback reg,
    ⟨insertA reg.entries (freshName docName reg)
        (freshEntry stat docName fallback reg),
      insertA reg.lookup stat (freshName docName reg)⟩)

/-- Registry-and-counter state of `RdmaCollector` that `Collect`
mutates. -/
structure CollectorState where
  statReg : Registry
  hwReg : Registry
  scrapeErrors : Nat
  rocePFCScrapeErrors : Nat
deriving DecidableEq

/-- State of a freshly constructed collector (`New`). -/
def initialState : CollectorState := ⟨emptyRegistry, emptyRegistry, 0, 0⟩

/-- Embedding of `(*RdmaCollector).statMetricDesc` (primary family). -/
def statMetricDescS (stat : String) (s : CollectorState) :
    Desc × CollectorState :=
  ((resolve stat statFallbackHelp s.statReg).1,
    { s with statReg := (resolve stat statFallbackHelp s.statReg).2 })

/-- Embedding of `(*RdmaCollector).hwMetricDesc` (secondary family). -/
def hwMetricDescS (stat : String) (s : CollectorState) :
    Desc × CollectorState :=
  ((resolve stat hwFallbackHelp s.hwReg).1,
    { s with hwReg := (resolve stat hwFallbackHelp s.hwReg).2 })

/-- Embedding of `rocePFCMetricKind`. -/
inductive RocePFCMetricKind where
  | frames
  | duration
  | transitions
deriving DecidableEq

/-- Kind selected by the optional third capture group of
`rocePFCStatPattern` (the Go `switch matches[3]`). -/
def pfcSuffixKind (suffix : String) : Option RocePFCMetricKind :=
  if suffix = "" then some RocePFCMetricKind.frames
  else if suffix = "_duration" then some RocePFCMetricKind.duration
  else if suffix = "_transition" then some RocePFCMetricKind.transitions
  else none

/-- Character-level transliteration of the anchored regular expression
`(rx|tx)_prio([0-7])_pause(?:_(duration|transition))?` applied by
`parseRoCEPFCMetricName`. -/
def parsePFCChars :
    List Char → Option (String × String × RocePFCMetricKind)
  | d1 :: c2 :: c3 :: c4 :: c5 :: c6 :: c7 :: p :: c9 :: c10 :: c11 ::
      c12 :: c13 :: c14 :: rest =>
    if (d1 = 'r' ∨ d1 = 't') ∧ c2 = 'x' ∧ c3 = '_' ∧ c4 = 'p' ∧ c5 = 'r' ∧
        c6 = 'i' ∧ c7 = 'o' ∧ '0' ≤ p ∧ p ≤ '7' ∧ c9 = '_' ∧ c10 = 'p' ∧
        c11 = 'a' ∧ c12 = 'u' ∧ c13 = 's' ∧ c14 = 'e' then
      (pfcSuffixKind (String.mk rest)).map
        (fun k => (String.mk [d1, c2], String.mk [p], k))
    else none
  | _ => none

/-- Embedding of `parseRoCEPFCMetricName`: direction, priority digit and
metric kind, or `none` when the name does not match. -/
def parseRoCEPFCMetricName (name : String) :
    Option (String × String × RocePFCMetricKind) :=
  parsePFCChars name.data

/-- Embedding of `rdma.PortAttributes`. -/
structure PortAttributes where
  linkLayer : String
  state : String
  physState : String
  linkWidth : String
  linkSpeed : String
  netDev : String
deriving DecidableEq

/-- Embedding of `rdma.Port` (counter maps as association lists). -/
structure Port where
  id : Int
  stats : List (String × Nat)
  hwStats : List (String × Nat)
  attributes : PortAttributes

/-- Embedding of `rdma.Device`. -/
structure Device where
  name : String
  ports : List Port

/-- Value type passed to `prometheus.MustNewConstMetric`. -/
inductive ValueKind where
  | counter
  | gauge
deriving DecidableEq

/-- One item written to the collection channel: either a const metric
sample or a process-level counter collecting its current value. -/
inductive Sample where
  | metric (desc : Desc) (kind : ValueKind) (value : Nat)
      (labels : List String)
  | counterSample (name : String) (value : Nat)
deriving DecidableEq

def portInfoDesc : Desc :=
  ⟨"rdma_port_info", "RDMA port metadata exported as labels.",
    ["device", "port", "link_layer", "state", "phys_state", "link_width",
      "link_speed"]⟩

def rocePFCPauseFramesDesc : Desc :=
  ⟨"rdma_roce_pfc_pause_frames_total",
    "RoCEv2 PFC pause frame counter sourced from ethtool stats.",
    ["device", "port", "netdev", "direction", "priority"]⟩

def rocePFCPauseDurationDesc : Desc :=
  ⟨"rdma_roce_pfc_pause_duration_total",
    "RoCEv2 PFC pause duration counter sourced from ethtool stats.",
    ["device", "port", "netdev", "direction", "priority"]⟩

def rocePFCPauseTransitionsDesc : Desc :=
  ⟨"rdma_roce_pfc_pause_transitions_total",
    "RoCEv2 PFC pause transition counter sourced from ethtool stats.",
    ["device", "port", "netdev", "direction", "priority"]⟩

/-- Descriptor selected for a parsed PFC stat (the Go `switch kind`). -/
def pfcKindDesc : RocePFCMetricKind → Desc
  | RocePFCMetricKind.frames => rocePFCPauseFramesDesc
  | RocePFCMetricKind.duration => rocePFCPauseDurationDesc
  | RocePFCMetricKind.transitions => rocePFCPauseTransitionsDesc

/-- Embedding of `sortedKeys`: map keys in ascending order. -/
def sortedKeys (m : List (String × Nat)) : List String :=
  if m.isEmpty then []
  else (m.map Prod.fst).mergeSort (fun a b => a ≤ b)

/-- Result of one secondary-stats fetch: the Go pair `(stats, err)`. -/
def NetDevResult : Type := Except Unit (List (String × Nat))

/-- The per-scrape cache `map[string]netDevStatsCacheEntry`. -/
def NetDevCache : Type := List (String × NetDevResult)

def netDevResultIsError : NetDevResult → Bool
  | Except.error _ => true
  | Except.ok _ => false

/-- Result of `readNetDevStatsWithCache`: the fetched value plus the
threaded cache, PFC error counter and provider call log (the `calls`
list is observational bookkeeping recording each interface name passed
to the underlying provider, in order). -/
structure ReadResult where
  res : NetDevResult
  cache : NetDevCache
  pfcErrors : Nat
  calls : List String

/-- Embedding of `readNetDevStatsWithCache`. -/
def readNetDevStatsWithCache (f : String → NetDevResult) (netDev : String)
    (cache : NetDevCache) (pfcErrors : Nat) (calls : List String) :
    ReadResult :=
  match lookupA cache netDev with
  | some entry => ⟨entry, cache, pfcErrors, calls⟩
  | none =>
    let res := f netDev
    let pfcErrors :=
      match res with
      | Except.error _ => pfcErrors + 1
      | Except.ok _ => pfcErrors
    ⟨res, insertA cache netDev res, pfcErrors, calls ++ [netDev]⟩

/-- Result of `collectRoCEPFCMetrics` for one port. -/
structure PFCResult where
  samples : List Sample
  cache : NetDevCache
  pfcErrors : Nat
  calls : List String

/-- Embedding of `collectRoCEPFCMetrics` for one port. -/
def collectRoCEPFCMetrics (netdevProv : Option (String → NetDevResult))
    (deviceName portID : String) (attr : PortAttributes)
    (cache : NetDevCache) (pfcErrors : Nat) (calls : List String) :
    PFCResult :=
  match netdevProv with
  | none => ⟨[], cache, pfcErrors, calls⟩
  | some f =>
    if attr.linkLayer ≠ "Ethernet" ∨ attr.netDev = "" then
      ⟨[], cache, pfcErrors, calls⟩
    else
      let r := readNetDevStatsWithCache f attr.netDev cache pfcErrors calls
      match r.res with
      | Except.error _ => ⟨[], r.cache, r.pfcErrors, r.calls⟩
      | Except.ok stats =>
        let samples := (sortedKeys stats).filterMap (fun name =>
          (parseRoCEPFCMetricName name).map (fun out =>
            Sample.metric (pfcKindDesc out.2.2) ValueKind.counter
              ((lookupA stats name).getD 0)
              [deviceName, portID, attr.netDev, out.1, out.2.1]))
        ⟨samples, r.cache, r.pfcErrors, r.calls⟩

/-- Accumulated effects of the per-device / per-port loops of `Collect`:
emitted samples, collector state, per-scrape cache, provider call log. -/
structure ScrapeAcc where
  samples : List Sample
  state : CollectorState
  cache : NetDevCache
  calls : List String

/-- Per-port loop over the primary counters (`port.Stats`). -/
def collectPortStats (deviceName portID : String)
    (stats : List (String × Nat)) (st : CollectorState) :
    List Sample × CollectorState :=
  if stats.isEmpty then ([], st)
  else
    (sortedKeys stats).foldl
      (fun (p : List Sample × CollectorState) name =>
        (p.1 ++ [Sample.metric (statMetricDescS name p.2).1
            ValueKind.counter ((lookupA stats name).getD 0)
            [deviceName, portID]],
          (statMetricDescS name p.2).2))
      ([], st)

/-- Per-port loop over the secondary counters (`port.HwStats`). -/
def collectPortHwStats (deviceName portID : String)
    (hwStats : List (String × Nat)) (st : CollectorState) :
    List Sample × CollectorState :=
  if hwStats.isEmpty then ([], st)
  else
    (sortedKeys hwStats).foldl
      (fun (p : List Sample × CollectorState) name =>
        (p.1 ++ [Sample.metric (hwMetricDescS name p.2).1
            ValueKind.counter ((lookupA hwStats name).getD 0)
            [deviceName, portID]],
          (hwMetricDescS name p.2).2))
      ([], st)

/-- Body of the per-port loop of `Collect`. -/
def collectPort (netdevProv : Option (String → NetDevResult))
    (deviceName : String) (acc : ScrapeAcc) (port : Port) : ScrapeAcc :=
  let portID := toString port.id
  let sp := collectPortStats deviceName portID port.stats acc.state
  let hp := collectPortHwStats deviceName portID port.hwStats sp.2
  let attr := port.attributes
  let pfc := collectRoCEPFCMetrics netdevProv deviceName portID attr
    acc.cache hp.2.rocePFCScrapeErrors acc.calls
  let infoSample := Sample.metric portInfoDesc ValueKind.gauge 1
    [deviceName, portID, attr.linkLayer, attr.state, attr.physState,
      attr.linkWidth, attr.linkSpeed]
  ⟨acc.samples ++ sp.1 ++ hp.1 ++ pfc.samples ++ [infoSample],
    { hp.2 with rocePFCScrapeErrors := pfc.pfcErrors },
    pfc.cache, pfc.calls⟩

/-- Output of one `Collect` call: the emitted channel contents, the
final collector state, and the secondary-provider call log. -/
structure CollectOutput where
  samples : List Sample
  state : CollectorState
  cache : NetDevCache
  calls : List String

/-- Embedding of `(*RdmaCollector).Collect`.  The enumerator outcome is
passed in as `devicesResult` (the value of `c.provider.Devices(ctx)`);
the optional secondary-stats source as `netdevProv`. -/
def collect (devicesResult : Except Unit (List Device))
    (netdevProv : Option (String → NetDevResult)) (s : CollectorState) :
    CollectOutput :=
  match devicesResult with
  | Except.error _ =>
    let s := { s with scrapeErrors := s.scrapeErrors + 1 }
    ⟨[Sample.counterSample "rdma_scrape_errors_total" s.scrapeErrors], s,
      [], []⟩
  | Except.ok devices =>
    let acc := devices.foldl
      (fun acc device =>
        device.ports.foldl (collectPort netdevProv device.name) acc)
      (⟨[], s, [], []⟩ : ScrapeAcc)
    ⟨acc.samples ++
        [Sample.counterSample "rdma_scrape_errors_total"
          acc.state.scrapeErrors,
         Sample.counterSample "rdma_roce_pfc_scrape_errors_total"
          acc.state.rocePFCScrapeErrors],
      acc.state, acc.cache, acc.calls⟩

/-- Characters allowed in the body of an exported metric identifier:
lower-case ASCII letters, digits, underscore. -/
def validMetricChar (c : Char) : Prop :=
  ('a' ≤ c ∧ c ≤ 'z') ∨ ('0' ≤ c ∧ c ≤ '9') ∨ c = '_'

/-- ASCII decimal digit. -/
def isDigitChar (c : Char) : Prop := '0' ≤ c ∧ c ≤ '9'

instance (c : Char) : Decidable (validMetricChar c) := by
  unfold validMetricChar; infer_instance

instance (c : Char) : Decidable (isDigitChar c) := by
  unfold isDigitChar; infer_instance

/-- Spec-side per-character sanitization map, written from the words of
the specification: lower-case ASCII letters pass through, upper-case
ASCII letters are lower-cased, digits pass through except a leading
digit is prefixed with an underscore, underscore passes through, and
every other character becomes an underscore. -/
def sanitizeCharSpec (first : Bool) (r : Char) : List Char :=
  if 'a' ≤ r ∧ r ≤ 'z' then [r]
  else if 'A' ≤ r ∧ r ≤ 'Z' then [Char.ofNat (r.toNat + 32)]
  else if '0' ≤ r ∧ r ≤ '9' then (if first then ['_', r] else [r])
  else if r = '_' then [r]
  else ['_']

/-- Spec-side sanitization transform: the per-character map applied at
every position (the first position flagged), with an empty result
becoming the literal string unknown. -/
def sanitizeSpec (stat : String) : String :=
  let out :=
    match stat.data with
    | [] => []
    | c :: rest => sanitizeCharSpec true c ++ rest.flatMap (sanitizeCharSpec false)
  if out = [] then "unknown" else String.mk out

/-- Spec-side description of the accepted PFC counter-name shape:
direction rx or tx, priority digit 0 through 7, and one of the three
suffixes selecting the metric kind. -/
def pfcShape (name : String) (out : String × String × RocePFCMetricKind) :
    Prop :=
  ∃ d p sfx k,
    (d = "rx" ∨ d = "tx")
    ∧ ('0' ≤ p ∧ p ≤ '7')
    ∧ ((sfx = "" ∧ k = RocePFCMetricKind.frames)
       ∨ (sfx = "_duration" ∧ k = RocePFCMetricKind.duration)
       ∨ (sfx = "_transition" ∧ k = RocePFCMetricKind.transitions))
    ∧ name = d ++ "_prio" ++ String.mk [p] ++ "_pause" ++ sfx
    ∧ out = (d, String.mk [p], k)

/-- True exactly on port-level series (const metric samples), false on
process-level counter emissions. -/
def isPortSample : Sample → Bool
  | Sample.metric _ _ _ _ => true
  | Sample.counterSample _ _ => false

/-- Collector state with the primary scrape-error counter replaced. -/
def withScrapeErrors (n : Nat) (s : CollectorState) : CollectorState :=
  { s with scrapeErrors := n }

/-- Per-scrape cache invariant threaded through one collection pass:
the provider call log has no duplicates, the cache holds exactly the
outcome of the provider for every interface fetched so far (success or
failure alike), and the PFC scrape-error counter has grown from its
initial value by exactly the number of distinct failing interfaces
fetched. -/
def PFCInv (f : String → NetDevResult) (init : Nat) (cache : NetDevCache)
    (pfcErrors : Nat) (calls : List String) : Prop :=
  calls.Nodup
  ∧ (∀ n : String, lookupA cache n = if n ∈ calls then some (f n) else none)
  ∧ pfcErrors =
      init + (calls.filter (fun n => netDevResultIsError (f n))).length

/-- The cache invariant over a scrape accumulator. -/
def PFCInvAcc (f : String → NetDevResult) (init : Nat)
    (acc : ScrapeAcc) : Prop :=
  PFCInv f init acc.cache acc.state.rocePFCScrapeErrors acc.calls

/-
Theorems.  First generic helper lemmas about the association-list map
model, characters and strings, then the claim theorems.
-/

theorem lookupA_eraseA {α : Type} (l : List (String × α)) (k k' : String) :
    lookupA (eraseA l k) k' = if k' = k then none else lookupA l k' := by
  induction l with
  | nil => simp [eraseA, lookupA]
  | cons p t ih =>
    obtain ⟨a, v⟩ := p
    by_cases hka : k = a
    · subst hka
      have he : eraseA ((k, v) :: t) k = eraseA t k := by simp [eraseA]
      rw [he, ih]
      by_cases hk : k' = k
      · simp [lookupA, hk]
      · simp [lookupA, hk]
    · simp only [eraseA, if_neg hka, lookupA]
      by_cases hk2 : k' = a
      · subst hk2
        have : ¬ k' = k := fun h => hka (h ▸ rfl)
        simp [this]
      · simp [hk2, ih]

theorem lookupA_insertA_self {α : Type} (l : List (String × α)) (k : String)
    (v : α) : lookupA (insertA l k v) k = some v := by
  simp [insertA, lookupA]

theorem lookupA_insertA_ne {α : Type} (l : List (String × α)) (k k' : String)
    (v : α) (h : k' ≠ k) : lookupA (insertA l k v) k' = lookupA l k' := by
  simp [insertA, lookupA, if_neg h, lookupA_eraseA, h]

theorem lookupA_insertA_isSome {α : Type} (l : List (String × α))
    (k k' : String) (v : α) (h : (lookupA l k').isSome) :
    (lookupA (insertA l k v) k').isSome := by
  by_cases hk : k' = k
  · subst hk; simp [lookupA_insertA_self]
  · rwa [lookupA_insertA_ne l k k' v hk]

theorem charLe_iff (a b : Char) : a ≤ b ↔ a.toNat ≤ b.toNat := Iff.rfl

theorem charEq_iff (a b : Char) : a = b ↔ a.toNat = b.toNat :=
  ⟨fun h => h ▸ rfl, fun h => Char.ext (UInt32.toNat.inj h)⟩

theorem toNat_ofNat_valid (n : Nat) (h : n.isValidChar) :
    (Char.ofNat n).toNat = n := by
  rw [Char.ofNat, dif_pos h]; rfl

theorem data_append (s t : String) : (s ++ t).data = s.data ++ t.data := by
  cases s; cases t; rfl

theorem mk_data (s : String) : String.mk s.data = s := by
  cases s; rfl

theorem ne_empty_iff_data (s : String) : s ≠ "" ↔ s.data ≠ [] := by
  rw [ne_eq, String.ext_iff]

theorem not_digit_of_toNat (c : Char)
    (h : 57 < c.toNat ∨ c.toNat < 48) : ¬ isDigitChar c := by
  intro hd
  obtain ⟨hd1, hd2⟩ := hd
  rw [charLe_iff] at hd1 hd2
  have h0 : ('0' : Char).toNat = 48 := by decide
  have h9 : ('9' : Char).toNat = 57 := by decide
  omega

theorem goToLower_bounds (r : Char) (h1 : 'A' ≤ r) (h2 : r ≤ 'Z') :
    'a' ≤ goToLower r ∧ goToLower r ≤ 'z' := by
  rw [charLe_iff] at h1 h2
  have hA : ('A' : Char).toNat = 65 := by decide
  have hZ : ('Z' : Char).toNat = 90 := by decide
  have hv : (r.toNat + 32).isValidChar := Or.inl (by omega)
  have ht : (goToLower r).toNat = r.toNat + 32 := toNat_ofNat_valid _ hv
  have ha : ('a' : Char).toNat = 97 := by decide
  have hz : ('z' : Char).toNat = 122 := by decide
  constructor
  · rw [charLe_iff, ha, ht]; omega
  · rw [charLe_iff, ht, hz]; omega

theorem sanitizeChars_cons (first : Bool) (r : Char) (rest : List Char) :
    sanitizeChars first (r :: rest) =
      sanitizeCharSpec first r ++ sanitizeChars false rest := by
  simp [sanitizeChars, sanitizeCharSpec, goToLower]

theorem sanitizeChars_eq_flatMap (l : List Char) :
    sanitizeChars false l = l.flatMap (sanitizeCharSpec false) := by
  induction l with
  | nil => rfl
  | cons c t ih => rw [sanitizeChars_cons, ih]; rfl

theorem sanitizeCharSpec_ne_nil (first : Bool) (r : Char) :
    sanitizeCharSpec first r ≠ [] := by
  unfold sanitizeCharSpec
  by_cases h1 : 'a' ≤ r ∧ r ≤ 'z'
  · simp [h1]
  · by_cases h2 : 'A' ≤ r ∧ r ≤ 'Z'
    · simp [h1, h2]
    · by_cases h3 : '0' ≤ r ∧ r ≤ '9'
      · cases first <;> simp [h1, h2, h3]
      · by_cases h4 : r = '_' <;> simp [h1, h2, h3, h4]

theorem validMetricChar_of_spec (first : Bool) (r c : Char)
    (h : c ∈ sanitizeCharSpec first r) : validMetricChar c := by
  unfold sanitizeCharSpec at h
  by_cases h1 : 'a' ≤ r ∧ r ≤ 'z'
  · simp [h1] at h; subst h; exact Or.inl h1
  · by_cases h2 : 'A' ≤ r ∧ r ≤ 'Z'
    · simp [h1, h2] at h; subst h
      exact Or.inl (goToLower_bounds r h2.1 h2.2)
    · by_cases h3 : '0' ≤ r ∧ r ≤ '9'
      · cases first
        · simp [h1, h2, h3] at h; subst h; exact Or.inr (Or.inl h3)
        · simp [h1, h2, h3] at h
          rcases h with h | h <;> subst h
          · exact Or.inr (Or.inr rfl)
          · exact Or.inr (Or.inl h3)
      · by_cases h4 : r = '_'
        · simp [h1, h2, h3, h4] at h; subst h; exact Or.inr (Or.inr rfl)
        · simp [h1, h2, h3, h4] at h; subst h; exact Or.inr (Or.inr rfl)

theorem sanitizeCharSpec_true_head (r c : Char)
    (h : (sanitizeCharSpec true r).head? = some c) : ¬ isDigitChar c := by
  unfold sanitizeCharSpec at h
  by_cases h1 : 'a' ≤ r ∧ r ≤ 'z'
  · simp [h1] at h; subst h
    apply not_digit_of_toNat
    left
    have := (charLe_iff _ _).mp h1.1
    have ha : ('a' : Char).toNat = 97 := by decide
    omega
  · by_cases h2 : 'A' ≤ r ∧ r ≤ 'Z'
    · simp [h1, h2] at h; subst h
      have hb := goToLower_bounds r h2.1 h2.2
      show ¬ isDigitChar (goToLower r)
      apply not_digit_of_toNat
      left
      have := (charLe_iff _ _).mp hb.1
      have ha : ('a' : Char).toNat = 97 := by decide
      omega
    · by_cases h3 : '0' ≤ r ∧ r ≤ '9'
      · simp [h1, h2, h3] at h; subst h
        apply not_digit_of_toNat
        left
        decide
      · by_cases h4 : r = '_'
        · simp [h1, h2, h3, h4] at h; subst h
          apply not_digit_of_toNat
          left
          decide
        · simp [h1, h2, h3, h4] at h; subst h
          apply not_digit_of_toNat
          left
          decide

theorem sanitizeCharSpec_valid_fix (first : Bool) (r : Char)
    (hv : validMetricChar r) (hf : first = true → ¬ isDigitChar r) :
    sanitizeCharSpec first r = [r] := by
  have h0 : ('0' : Char).toNat = 48 := by decide
  have h9 : ('9' : Char).toNat = 57 := by decide
  have ha : ('a' : Char).toNat = 97 := by decide
  have hz : ('z' : Char).toNat = 122 := by decide
  have hA : ('A' : Char).toNat = 65 := by decide
  have hZ : ('Z' : Char).toNat = 90 := by decide
  rcases hv with h | h | h
  · simp [sanitizeCharSpec, h]
  · have hne : ¬ ('a' ≤ r ∧ r ≤ 'z') := by
      rintro ⟨hc, -⟩
      rw [charLe_iff, ha] at hc
      have := (charLe_iff _ _).mp h.2
      omega
    have hne2 : ¬ ('A' ≤ r ∧ r ≤ 'Z') := by
      rintro ⟨hc, -⟩
      rw [charLe_iff, hA] at hc
      have := (charLe_iff _ _).mp h.2
      omega
    cases first
    · simp [sanitizeCharSpec, hne, hne2, h]
    · exact absurd h (hf rfl)
  · subst h
    have hne : ¬ ('a' ≤ ('_' : Char) ∧ ('_' : Char) ≤ 'z') := by decide
    have hne2 : ¬ ('A' ≤ ('_' : Char) ∧ ('_' : Char) ≤ 'Z') := by decide
    have hne3 : ¬ ('0' ≤ ('_' : Char) ∧ ('_' : Char) ≤ '9') := by decide
    simp [sanitizeCharSpec, hne, hne2, hne3]

theorem sanitizeChars_fix_false (l : List Char)
    (hv : ∀ c ∈ l, validMetricChar c) : sanitizeChars false l = l := by
  induction l with
  | nil => rfl
  | cons c t ih =>
    rw [sanitizeChars_cons,
      sanitizeCharSpec_valid_fix false c (hv c (by simp))
        (fun h => absurd h (by simp)),
      ih (fun d hd => hv d (by simp [hd]))]
    rfl

theorem sanitizeChars_fix_true (l : List Char)
    (hv : ∀ c ∈ l, validMetricChar c)
    (hh : ∀ c, l.head? = some c → ¬ isDigitChar c) :
    sanitizeChars true l = l := by
  cases l with
  | nil => rfl
  | cons c t =>
    rw [sanitizeChars_cons,
      sanitizeCharSpec_valid_fix true c (hv c (by simp))
        (fun _ => hh c rfl),
      sanitizeChars_fix_false t (fun d hd => hv d (by simp [hd]))]
    rfl

theorem sanitizeChars_ne_nil (first : Bool) (c : Char) (rest : List Char) :
    sanitizeChars first (c :: rest) ≠ [] := by
  rw [sanitizeChars_cons]
  intro h
  exact sanitizeCharSpec_ne_nil first c (List.append_eq_nil.mp h).1

theorem sanitizeChars_valid (first : Bool) (l : List Char) (c : Char)
    (h : c ∈ sanitizeChars first l) : validMetricChar c := by
  induction l generalizing first with
  | nil => simp [sanitizeChars] at h
  | cons r t ih =>
    rw [sanitizeChars_cons] at h
    rcases List.mem_append.mp h with h | h
    · exact validMetricChar_of_spec first r c h
    · exact ih false h

theorem sanitizeChars_true_head (c : Char) (rest : List Char) (d : Char)
    (h : (sanitizeChars true (c :: rest)).head? = some d) :
    ¬ isDigitChar d := by
  rw [sanitizeChars_cons] at h
  cases hs : sanitizeCharSpec true c with
  | nil => exact absurd hs (sanitizeCharSpec_ne_nil true c)
  | cons x xs =>
    rw [hs] at h
    simp at h
    subst h
    exact sanitizeCharSpec_true_head c x (by rw [hs]; rfl)

theorem sanitize_eq_mk (stat : String) (h : stat ≠ "") :
    sanitizeStatName stat = String.mk (sanitizeChars true stat.data) := by
  have hd : stat.data ≠ [] := (ne_empty_iff_data stat).mp h
  obtain ⟨c, rest, hl⟩ : ∃ c rest, stat.data = c :: rest := by
    cases hcl : stat.data with
    | nil => exact absurd hcl hd
    | cons c rest => exact ⟨c, rest, rfl⟩
  have hne : sanitizeChars true stat.data ≠ [] := by
    rw [hl]; exact sanitizeChars_ne_nil true c rest
  have hres : String.mk (sanitizeChars true stat.data) ≠ "" := by
    rw [ne_empty_iff_data]; exact hne
  rw [sanitizeStatName, if_neg h]
  simp only [if_neg hres]
  unfold leadingDigitGuard
  cases hsc : sanitizeChars true stat.data with
  | nil => exact absurd hsc hne
  | cons d ds =>
    have hnd : ¬ isDigitChar d := by
      apply sanitizeChars_true_head c rest
      rw [← hl, hsc]
      rfl
    simp only [hsc]
    exact if_neg hnd

theorem sanitize_ne_empty (s : String) : sanitizeStatName s ≠ "" := by
  by_cases h : s = ""
  · subst h; decide
  · rw [sanitize_eq_mk s h, ne_empty_iff_data]
    cases hl : s.data with
    | nil => exact absurd hl ((ne_empty_iff_data s).mp h)
    | cons c rest => exact sanitizeChars_ne_nil true c rest

theorem sanitize_valid (s : String) (c : Char)
    (h : c ∈ (sanitizeStatName s).data) : validMetricChar c := by
  by_cases he : s = ""
  · subst he
    have : sanitizeStatName "" = "unknown" := by decide
    rw [this] at h
    fin_cases h <;> decide

  · rw [sanitize_eq_mk s he] at h
    exact sanitizeChars_valid true s.data c h

theorem sanitize_head_not_digit (s : String) (c : Char)
    (h : (sanitizeStatName s).data.head? = some c) : ¬ isDigitChar c := by
  by_cases he : s = ""
  · subst he
    have : sanitizeStatName "" = "unknown" := by decide
    rw [this] at h
    simp [String.data] at h
    subst h
    decide
  · rw [sanitize_eq_mk s he] at h
    cases hl : s.data with
    | nil => exact absurd hl ((ne_empty_iff_data s).mp he)
    | cons d rest =>
      rw [hl] at h
      exact sanitizeChars_true_head d rest c h

theorem sanitize_idem (s : String) :
    sanitizeStatName (sanitizeStatName s) = sanitizeStatName s := by
  have hne : sanitizeStatName s ≠ "" := sanitize_ne_empty s
  rw [sanitize_eq_mk _ hne,
    sanitizeChars_fix_true _ (sanitize_valid s) (sanitize_head_not_digit s),
    mk_data]

/-- C8: for every input string, sanitization maps each character as
documented — lower-case ASCII letters pass through, upper-case ASCII
letters are lower-cased, digits pass through except a leading digit is
prefixed with an underscore, underscore passes through, every other
character (including all non-ASCII characters) becomes an underscore —
and an empty result becomes the literal string unknown.  Stated as:
`sanitizeStatName` coincides with the transform `sanitizeSpec` written
from the words of the specification. -/
theorem c8_sanitization_transform (stat : String) :
    sanitizeStatName stat = sanitizeSpec stat := by
  by_cases h : stat = ""
  · subst h; decide
  · obtain ⟨c, rest, hl⟩ : ∃ c rest, stat.data = c :: rest := by
      cases hcl : stat.data with
      | nil => exact absurd hcl ((ne_empty_iff_data stat).mp h)
      | cons c rest => exact ⟨c, rest, rfl⟩
    rw [sanitize_eq_mk stat h]
    unfold sanitizeSpec
    simp only [hl]
    have hout : sanitizeCharSpec true c ++
        rest.flatMap (sanitizeCharSpec false) ≠ [] := by
      intro hh
      exact sanitizeCharSpec_ne_nil true c (List.append_eq_nil.mp hh).1
    rw [if_neg hout, sanitizeChars_cons, sanitizeChars_eq_flatMap]

theorem lookupA_mem {α : Type} (l : List (String × α)) (k : String) (v : α)
    (h : lookupA l k = some v) : (k, v) ∈ l := by
  induction l with
  | nil => simp [lookupA] at h
  | cons p t ih =>
    obtain ⟨a, w⟩ := p
    by_cases hk : k = a
    · subst hk
      simp [lookupA] at h
      subst h
      exact List.mem_cons_self _ _
    · simp [lookupA, hk] at h
      exact List.mem_cons_of_mem _ (ih h)

theorem metricSpecs_docName_eq_key :
    ∀ p ∈ metricSpecs, p.2.DocName = p.1 ∧ p.2.DocName ≠ "" := by decide

theorem lookup_specs_docName (k : String) (spec : MetricSpec)
    (h : lookupA metricSpecs k = some spec) :
    spec.DocName = k ∧ spec.DocName ≠ "" := by
  exact metricSpecs_docName_eq_key (k, spec) (lookupA_mem _ _ _ h)

theorem canonical_of_hit (s : String) (spec : MetricSpec)
    (h : lookupA metricSpecs s = some spec) : canonicalDocName s = s := by
  obtain ⟨h1, h2⟩ := lookup_specs_docName s spec h
  unfold canonicalDocName
  rw [h]
  show (if spec.DocName ≠ "" then spec.DocName else canonicalFallback s) = s
  rw [if_pos h2, h1]

theorem canonical_of_miss (s : String) (h : lookupA metricSpecs s = none) :
    canonicalDocName s = canonicalFallback s := by
  unfold canonicalDocName
  rw [h]

/-- C9: canonicalization is total — for every string (including the
empty string and strings of only non-ASCII characters) the canonical
documented name is non-empty — and idempotent: canonicalizing a
canonical result returns it unchanged. -/
theorem c9_canonicalization_total_idempotent (s : String) :
    canonicalDocName s ≠ "" ∧
      canonicalDocName (canonicalDocName s) = canonicalDocName s := by
  cases hc : lookupA metricSpecs s with
  | some spec =>
    have hcs : canonicalDocName s = s := canonical_of_hit s spec hc
    have hne : s ≠ "" := by
      intro he
      obtain ⟨h1, h2⟩ := lookup_specs_docName s spec hc
      exact h2 (h1.trans he)
    rw [hcs]
    exact ⟨hne, by rw [hcs]⟩
  | none =>
    rw [canonical_of_miss s hc]
    unfold canonicalFallback
    have hsne := sanitize_ne_empty s
    cases hc2 : lookupA metricSpecs (sanitizeStatName s) with
    | some spec2 =>
      obtain ⟨hd, hdne⟩ := lookup_specs_docName _ _ hc2
      simp only [hc2, if_pos hdne]
      refine ⟨by rw [hd]; exact hsne, ?_⟩
      rw [hd]
      exact canonical_of_hit _ spec2 hc2
    | none =>
      simp only [hc2, if_neg hsne]
      refine ⟨hsne, ?_⟩
      rw [canonical_of_miss _ hc2]
      unfold canonicalFallback
      rw [sanitize_idem s]
      simp only [hc2, if_neg hsne]

theorem hexChar_valid (d : Nat) (h : d < 16) : validMetricChar (hexChar d) := by
  unfold hexChar
  by_cases h10 : d < 10
  · rw [if_pos h10]
    right; left
    have hv : (48 + d).isValidChar := Or.inl (by omega)
    have ht := toNat_ofNat_valid _ hv
    have h0 : ('0' : Char).toNat = 48 := by decide
    have h9 : ('9' : Char).toNat = 57 := by decide
    exact ⟨by rw [charLe_iff, ht, h0]; omega,
      by rw [charLe_iff, ht, h9]; omega⟩
  · rw [if_neg h10]
    left
    have hv : (87 + d).isValidChar := Or.inl (by omega)
    have ht := toNat_ofNat_valid _ hv
    have ha : ('a' : Char).toNat = 97 := by decide
    have hz : ('z' : Char).toNat = 122 := by decide
    exact ⟨by rw [charLe_iff, ht, ha]; omega,
      by rw [charLe_iff, ht, hz]; omega⟩

theorem hexRepAux_valid (fuel : Nat) : ∀ (n : Nat) (c : Char),
    c ∈ hexRepAux fuel n → validMetricChar c := by
  induction fuel with
  | zero => intro n c h; simp [hexRepAux] at h
  | succ fuel ih =>
    intro n c h
    by_cases h0 : n = 0
    · simp [hexRepAux, h0] at h
    · rw [hexRepAux, if_neg h0] at h
      rcases List.mem_append.mp h with hm | hm
      · exact ih (n / 16) c hm
      · simp at hm
        subst hm
        exact hexChar_valid _ (Nat.mod_lt _ (by omega))

theorem hexRep_valid (n : Nat) (c : Char) (h : c ∈ hexRep n) :
    validMetricChar c :=
  hexRepAux_valid (n + 1) n c h

theorem toHex_valid (n : Nat) (c : Char) (h : c ∈ (toHex n).data) :
    validMetricChar c := by
  unfold toHex at h
  by_cases h0 : n = 0
  · rw [if_pos h0] at h
    simp [String.data] at h
    subst h
    decide
  · rw [if_neg h0] at h
    exact hexRep_valid n c h

theorem toHex_data_ne_nil (n : Nat) : (toHex n).data ≠ [] := by
  unfold toHex
  by_cases h0 : n = 0
  · rw [if_pos h0]; decide
  · rw [if_neg h0]
    show hexRep n ≠ []
    rw [hexRep, hexRepAux, if_neg h0]
    simp

/-- C10: every identifier the registry can allocate — produced by
`buildMetricName` from the canonical documented name of any raw counter
name, in any registry state, hence in either family — starts with
`rdma_`, ends with `_total`, has only lower-case ASCII letters, digits
and underscores in between, and the segment after `rdma_` never starts
with a digit. -/
theorem c10_identifier_wellformed (raw : String)
    (existing : List (String × MetricEntry)) :
    ∃ mid : String,
      buildMetricName (canonicalDocName raw) existing =
        "rdma_" ++ mid ++ "_total"
      ∧ mid ≠ ""
      ∧ (∀ c ∈ mid.data, validMetricChar c)
      ∧ (∀ c, mid.data.head? = some c → ¬ isDigitChar c) := by
  set d := canonicalDocName raw with hd
  set base := sanitizeStatName d with hbase
  have hbne : base ≠ "" := sanitize_ne_empty d
  have hbdata : base.data ≠ [] := (ne_empty_iff_data base).mp hbne
  have hbvalid : ∀ c ∈ base.data, validMetricChar c := sanitize_valid d
  have hbhead : ∀ c, base.data.head? = some c → ¬ isDigitChar c :=
    sanitize_head_not_digit d
  have hbmn : buildMetricName d existing =
      (match lookupA existing ("rdma_" ++ base ++ "_total") with
       | some entry =>
         if entry.docName ≠ d then
           "rdma_" ++ base ++ "_" ++ toHex (fnv32 d) ++ "_total"
         else "rdma_" ++ base ++ "_total"
       | none => "rdma_" ++ base ++ "_total") := rfl
  cases hlook : lookupA existing ("rdma_" ++ base ++ "_total") with
  | none =>
    rw [hbmn, hlook]
    exact ⟨base, rfl, hbne, hbvalid, hbhead⟩
  | some entry =>
    rw [hbmn, hlook]
    show ∃ mid,
      (if entry.docName ≠ d then
          "rdma_" ++ base ++ "_" ++ toHex (fnv32 d) ++ "_total"
        else "rdma_" ++ base ++ "_total") = "rdma_" ++ mid ++ "_total"
      ∧ mid ≠ ""
      ∧ (∀ c ∈ mid.data, validMetricChar c)
      ∧ (∀ c, mid.data.head? = some c → ¬ isDigitChar c)
    by_cases hdoc : entry.docName ≠ d
    · rw [if_pos hdoc]
      refine ⟨base ++ "_" ++ toHex (fnv32 d), ?_, ?_, ?_, ?_⟩
      · rw [String.ext_iff]
        simp [data_append]
      · rw [ne_empty_iff_data, data_append, data_append]
        intro hh
        exact hbdata (List.append_eq_nil.mp (List.append_eq_nil.mp hh).1).1
      · intro c hc
        rw [data_append, data_append] at hc
        rcases List.mem_append.mp hc with hc | hc
        · rcases List.mem_append.mp hc with hc | hc
          · exact hbvalid c hc
          · have : c = '_' := by simpa [String.data] using hc
            subst this
            exact Or.inr (Or.inr rfl)
        · exact toHex_valid _ c hc
      · intro c hc
        rw [data_append, data_append] at hc
        cases hbl : base.data with
        | nil => exact absurd hbl hbdata
        | cons b bs =>
          rw [hbl] at hc
          simp at hc
          subst hc
          exact hbhead b (by rw [hbl]; rfl)
    · rw [if_neg hdoc]
      exact ⟨base, rfl, hbne, hbvalid, hbhead⟩

theorem parsePFC_shape_of_some (name : String)
    (out : String × String × RocePFCMetricKind)
    (h : parseRoCEPFCMetricName name = some out) : pfcShape name out := by
  unfold parseRoCEPFCMetricName parsePFCChars at h
  split at h
  · next d1 c2 c3 c4 c5 c6 c7 p c9 c10 c11 c12 c13 c14 rest heq =>
    split at h
    · next hcond =>
      obtain ⟨hd1, h2, h3, h4, h5, h6, h7, hp0, hp7, h9, h10, h11, h12,
        h13, h14⟩ := hcond
      subst h2 h3 h4 h5 h6 h7 h9 h10 h11 h12 h13 h14
      rw [Option.map_eq_some'] at h
      obtain ⟨k, hk, hout⟩ := h
      refine ⟨String.mk [d1, 'x'], p, String.mk rest, k, ?_, ⟨hp0, hp7⟩,
        ?_, ?_, hout.symm⟩
      · rcases hd1 with hr | ht
        · subst hr; left; rfl
        · subst ht; right; rfl
      · unfold pfcSuffixKind at hk
        split at hk
        · next he => cases hk; exact Or.inl ⟨he, rfl⟩
        · split at hk
          · next he => cases hk; exact Or.inr (Or.inl ⟨he, rfl⟩)
          · split at hk
            · next he => cases hk; exact Or.inr (Or.inr ⟨he, rfl⟩)
            · exact absurd hk (by simp)
      · rw [String.ext_iff, heq]
        rcases hd1 with hr | ht
        · subst hr; rfl
        · subst ht; rfl
    · exact absurd h (by simp)
  · exact absurd h (by simp)

theorem parsePFC_some_of_shape (name : String)
    (out : String × String × RocePFCMetricKind) (h : pfcShape name out) :
    parseRoCEPFCMetricName name = some out := by
  obtain ⟨d, p, sfx, k, hd, ⟨hp0, hp7⟩, hsfx, hname, hout⟩ := h
  subst hname
  subst hout
  unfold parseRoCEPFCMetricName
  rcases hd with hd | hd <;> subst hd
  · show parsePFCChars
      ('r' :: 'x' :: '_' :: 'p' :: 'r' :: 'i' :: 'o' :: p :: '_' :: 'p' ::
        'a' :: 'u' :: 's' :: 'e' :: sfx.data) = _
    show (if (('r' : Char) = 'r' ∨ ('r' : Char) = 't') ∧ ('x' : Char) = 'x'
        ∧ ('_' : Char) = '_' ∧ ('p' : Char) = 'p' ∧ ('r' : Char) = 'r'
        ∧ ('i' : Char) = 'i' ∧ ('o' : Char) = 'o' ∧ '0' ≤ p ∧ p ≤ '7'
        ∧ ('_' : Char) = '_' ∧ ('p' : Char) = 'p' ∧ ('a' : Char) = 'a'
        ∧ ('u' : Char) = 'u' ∧ ('s' : Char) = 's' ∧ ('e' : Char) = 'e' then
        (pfcSuffixKind (String.mk sfx.data)).map
          (fun k => (String.mk ['r', 'x'], String.mk [p], k))
      else none) = _
    rw [if_pos ⟨Or.inl rfl, rfl, rfl, rfl, rfl, rfl, rfl, hp0, hp7, rfl,
      rfl, rfl, rfl, rfl, rfl⟩, mk_data]
    rcases hsfx with ⟨he, hk⟩ | ⟨he, hk⟩ | ⟨he, hk⟩ <;> subst he <;>
      subst hk <;> rfl
  · show parsePFCChars
      ('t' :: 'x' :: '_' :: 'p' :: 'r' :: 'i' :: 'o' :: p :: '_' :: 'p' ::
        'a' :: 'u' :: 's' :: 'e' :: sfx.data) = _
    show (if (('t' : Char) = 'r' ∨ ('t' : Char) = 't') ∧ ('x' : Char) = 'x'
        ∧ ('_' : Char) = '_' ∧ ('p' : Char) = 'p' ∧ ('r' : Char) = 'r'
        ∧ ('i' : Char) = 'i' ∧ ('o' : Char) = 'o' ∧ '0' ≤ p ∧ p ≤ '7'
        ∧ ('_' : Char) = '_' ∧ ('p' : Char) = 'p' ∧ ('a' : Char) = 'a'
        ∧ ('u' : Char) = 'u' ∧ ('s' : Char) = 's' ∧ ('e' : Char) = 'e' then
        (pfcSuffixKind (String.mk sfx.data)).map
          (fun k => (String.mk ['t', 'x'], String.mk [p], k))
      else none) = _
    rw [if_pos ⟨Or.inr rfl, rfl, rfl, rfl, rfl, rfl, rfl, hp0, hp7, rfl,
      rfl, rfl, rfl, rfl, rfl⟩, mk_data]
    rcases hsfx with ⟨he, hk⟩ | ⟨he, hk⟩ | ⟨he, hk⟩ <;> subst he <;>
      subst hk <;> rfl

/-- C7: the PFC extractor accepts exactly the names of shape
`{rx|tx}_prio{0-7}_pause`, `{rx|tx}_prio{0-7}_pause_duration` and
`{rx|tx}_prio{0-7}_pause_transition`, returning the direction, the
priority digit as a string, and the kind (frames, duration, transitions
respectively); everything else is not matched.  In particular
`rx_prio3_pause` yields `(rx, 3, frames)`, `tx_prio7_pause_transition`
yields `(tx, 7, transitions)`, and `rx_prio9_pause` and `garbage` are
not matched. -/
theorem c7_pfc_extraction :
    (∀ (name : String) (out : String × String × RocePFCMetricKind),
      parseRoCEPFCMetricName name = some out ↔ pfcShape name out)
    ∧ parseRoCEPFCMetricName "rx_prio3_pause" =
        some ("rx", "3", RocePFCMetricKind.frames)
    ∧ parseRoCEPFCMetricName "tx_prio7_pause_transition" =
        some ("tx", "7", RocePFCMetricKind.transitions)
    ∧ parseRoCEPFCMetricName "rx_prio9_pause" = none
    ∧ parseRoCEPFCMetricName "garbage" = none := by
  refine ⟨fun name out => ⟨parsePFC_shape_of_some name out,
    parsePFC_some_of_shape name out⟩, ?_, ?_, ?_, ?_⟩ <;> decide

theorem buildMetricName_eq (docName : String)
    (E : List (String × MetricEntry)) :
    buildMetricName docName E =
      (match lookupA E ("rdma_" ++ sanitizeStatName docName ++ "_total") with
       | some entry =>
         if entry.docName ≠ docName then
           "rdma_" ++ sanitizeStatName docName ++ "_" ++
             toHex (fnv32 docName) ++ "_total"
         else "rdma_" ++ sanitizeStatName docName ++ "_total"
       | none => "rdma_" ++ sanitizeStatName docName ++ "_total") := rfl

theorem cand_ne_ext (docName : String) :
    ("rdma_" ++ sanitizeStatName docName ++ "_total" : String) ≠
      "rdma_" ++ sanitizeStatName docName ++ "_" ++ toHex (fnv32 docName) ++
        "_total" := by
  intro h
  rw [String.ext_iff] at h
  simp only [data_append] at h
  have hlen := congrArg List.length h
  simp only [List.length_append] at hlen
  have hpos : 0 < (toHex (fnv32 docName)).data.length :=
    List.length_pos.mpr (toHex_data_ne_nil _)
  have hu : ("_" : String).data.length = 1 := by decide
  omega

theorem buildMetricName_of_free (docName : String)
    (E : List (String × MetricEntry))
    (h : lookupA E ("rdma_" ++ sanitizeStatName docName ++ "_total") = none) :
    buildMetricName docName E =
      "rdma_" ++ sanitizeStatName docName ++ "_total" := by
  rw [buildMetricName_eq]
  simp only [h]

theorem buildMetricName_of_same (docName : String)
    (E : List (String × MetricEntry)) (e : MetricEntry)
    (h : lookupA E ("rdma_" ++ sanitizeStatName docName ++ "_total") = some e)
    (hd : e.docName = docName) :
    buildMetricName docName E =
      "rdma_" ++ sanitizeStatName docName ++ "_total" := by
  rw [buildMetricName_eq]
  simp only [h]
  rw [if_neg (fun hh => hh hd)]

theorem buildMetricName_of_other (docName : String)
    (E : List (String × MetricEntry)) (e : MetricEntry)
    (h : lookupA E ("rdma_" ++ sanitizeStatName docName ++ "_total") = some e)
    (hd : e.docName ≠ docName) :
    buildMetricName docName E =
      "rdma_" ++ sanitizeStatName docName ++ "_" ++ toHex (fnv32 docName) ++
        "_total" := by
  rw [buildMetricName_eq]
  simp only [h]
  rw [if_pos hd]

theorem buildMetricName_stable (docName : String)
    (E : List (String × MetricEntry)) (e : MetricEntry)
    (hdoc : e.docName = docName) :
    buildMetricName docName (insertA E (buildMetricName docName E) e) =
      buildMetricName docName E := by
  cases hc : lookupA E ("rdma_" ++ sanitizeStatName docName ++ "_total") with
  | none =>
    have h1 := buildMetricName_of_free docName E hc
    rw [h1]
    exact buildMetricName_of_same docName _ e
      (by rw [lookupA_insertA_self]) hdoc
  | some e2 =>
    by_cases hd : e2.docName ≠ docName
    · have h1 := buildMetricName_of_other docName E e2 hc hd
      rw [h1]
      refine buildMetricName_of_other docName _ e2 ?_ hd
      rw [lookupA_insertA_ne _ _ _ _ (cand_ne_ext docName)]
      exact hc
    · have h1 := buildMetricName_of_same docName E e2 hc (not_not.mp hd)
      rw [h1]
      exact buildMetricName_of_same docName _ e
        (by rw [lookupA_insertA_self]) hdoc

theorem metricDesc_hit (stat docName fb m : String) (e : MetricEntry)
    (reg : Registry) (hl : lookupA reg.lookup stat = some m)
    (he : lookupA reg.entries m = some e) :
    metricDesc stat docName fb reg = (e.desc, reg) := by
  unfold metricDesc
  simp only [hl, he, Option.map_some']

theorem metricDesc_fresh_none (stat docName fb : String) (reg : Registry)
    (hl : lookupA reg.lookup stat = none) :
    metricDesc stat docName fb reg = freshResolve stat docName fb reg := by
  unfold metricDesc freshResolve freshEntry freshDesc freshName
  simp only [hl]

theorem metricDesc_fresh_stale (stat docName fb m : String)
    (reg : Registry) (hl : lookupA reg.lookup stat = some m)
    (he : lookupA reg.entries m = none) :
    metricDesc stat docName fb reg = freshResolve stat docName fb reg := by
  unfold metricDesc freshResolve freshEntry freshDesc freshName
  simp only [hl, he, Option.map_none']

theorem resolve_twice (reg : Registry) (fb r : String) :
    (resolve r fb reg).1.fqName =
      (resolve r fb (resolve r fb reg).2).1.fqName := by
  unfold resolve
  cases hl : lookupA reg.lookup r with
  | some m =>
    cases he : lookupA reg.entries m with
    | some e =>
      simp only [metricDesc_hit r _ fb m e reg hl he]
    | none =>
      rw [metricDesc_fresh_stale r _ fb m reg hl he]
      rw [metricDesc_hit r _ fb (freshName (canonicalDocName r) reg)
        (freshEntry r (canonicalDocName r) fb reg) _
        (lookupA_insertA_self _ _ _) (lookupA_insertA_self _ _ _)]
      rfl
  | none =>
    rw [metricDesc_fresh_none r _ fb reg hl]
    rw [metricDesc_hit r _ fb (freshName (canonicalDocName r) reg)
      (freshEntry r (canonicalDocName r) fb reg) _
      (lookupA_insertA_self _ _ _) (lookupA_insertA_self _ _ _)]
    rfl

theorem resolve_pair_stable (reg : Registry) (fb r1 r2 : String)
    (h1 : lookupA reg.lookup r1 = none) (h2 : lookupA reg.lookup r2 = none)
    (hne : r1 ≠ r2) (hdoc : canonicalDocName r1 = canonicalDocName r2) :
    (resolve r1 fb reg).1.fqName =
      (resolve r2 fb (resolve r1 fb reg).2).1.fqName := by
  unfold resolve
  rw [metricDesc_fresh_none r1 _ fb reg h1]
  have hl2 : lookupA (freshResolve r1 (canonicalDocName r1) fb reg).2.lookup
      r2 = none := by
    unfold freshResolve
    rw [lookupA_insertA_ne _ _ _ _ (fun h => hne h.symm)]
    exact h2
  rw [metricDesc_fresh_none r2 _ fb _ hl2]
  show freshName (canonicalDocName r1) reg =
    freshName (canonicalDocName r2) (freshResolve r1 (canonicalDocName r1) fb reg).2
  unfold freshName freshResolve freshName
  rw [← hdoc]
  exact (buildMetricName_stable (canonicalDocName r1) reg.entries
    (freshEntry r1 (canonicalDocName r1) fb reg) rfl).symm

/-- C1 counterexample: the claim fails as stated.  On a registry that
has (reachably, by three ordinary resolutions from the fresh state)
registered `vl15_dropped_8ba46c58`, then `vl15_dropped`, then
`VL15_dropped` — the last of which reassigns the candidate identifier of
the first — two distinct raw names with the same documented name,
`vl15_dropped_8ba46c58` and `VL15_DROPPED_8ba46c58`, resolve to two
different identifiers. -/
theorem c1_counterexample :
    canonicalDocName "vl15_dropped_8ba46c58" =
        canonicalDocName "VL15_DROPPED_8ba46c58"
    ∧ "vl15_dropped_8ba46c58" ≠ "VL15_DROPPED_8ba46c58"
    ∧ (resolve "vl15_dropped_8ba46c58" statFallbackHelp
          (resolve "VL15_dropped" statFallbackHelp
            (resolve "vl15_dropped" statFallbackHelp
              (resolve "vl15_dropped_8ba46c58" statFallbackHelp
                emptyRegistry).2).2).2).1.fqName ≠
        (resolve "VL15_DROPPED_8ba46c58" statFallbackHelp
          (resolve "vl15_dropped_8ba46c58" statFallbackHelp
            (resolve "VL15_dropped" statFallbackHelp
              (resolve "vl15_dropped" statFallbackHelp
                (resolve "vl15_dropped_8ba46c58" statFallbackHelp
                  emptyRegistry).2).2).2).2).1.fqName := by
  exact ⟨by decide, by decide, by decide⟩

/-- C1 (amended): identifier stability holds for raw names that are not
yet cached: resolving two distinct uncached raw names with the same
documented name in sequence, on any registry, yields the same
identifier; and resolving any raw name twice in a row always yields the
same identifier both times. -/
theorem c1_amended_identifier_stability (reg : Registry) (fb r1 r2 : String)
    (h1 : lookupA reg.lookup r1 = none) (h2 : lookupA reg.lookup r2 = none)
    (hne : r1 ≠ r2) (hdoc : canonicalDocName r1 = canonicalDocName r2) :
    (resolve r1 fb reg).1.fqName =
      (resolve r2 fb (resolve r1 fb reg).2).1.fqName
    ∧ ∀ r : String, (resolve r fb reg).1.fqName =
        (resolve r fb (resolve r fb reg).2).1.fqName :=
  ⟨resolve_pair_stable reg fb r1 r2 h1 h2 hne hdoc,
    fun r => resolve_twice reg fb r⟩

/-- Witness for the amended C1 theorem at a concrete input. -/
theorem c1_amended_identifier_stability_witness :
    lookupA emptyRegistry.lookup "Foo" = none
    ∧ lookupA emptyRegistry.lookup "foo" = none
    ∧ "Foo" ≠ "foo"
    ∧ canonicalDocName "Foo" = canonicalDocName "foo"
    ∧ ((resolve "Foo" statFallbackHelp emptyRegistry).1.fqName =
        (resolve "foo" statFallbackHelp
          (resolve "Foo" statFallbackHelp emptyRegistry).2).1.fqName
      ∧ ∀ r : String,
          (resolve r statFallbackHelp emptyRegistry).1.fqName =
            (resolve r statFallbackHelp
              (resolve r statFallbackHelp emptyRegistry).2).1.fqName) :=
  ⟨rfl, rfl, by decide, by decide,
    c1_amended_identifier_stability emptyRegistry statFallbackHelp
      "Foo" "foo" rfl rfl (by decide) (by decide)⟩

/-- C2: collision safety.  For two uncached raw names whose documented
names differ but sanitize to the same candidate identifier, with the
candidate not yet allocated: the first gets the candidate identifier,
the second gets the candidate extended with the hexadecimal FNV-1a
digest of its documented name, the two identifiers differ, and the
earlier identifier still maps to the first registration entry. -/
theorem c2_collision_safety (reg : Registry) (fb r1 r2 : String)
    (hl1 : lookupA reg.lookup r1 = none)
    (hl2 : lookupA reg.lookup r2 = none)
    (hne : r1 ≠ r2)
    (hdne : canonicalDocName r1 ≠ canonicalDocName r2)
    (hsan : sanitizeStatName (canonicalDocName r1) =
      sanitizeStatName (canonicalDocName r2))
    (hcand : lookupA reg.entries
        ("rdma_" ++ sanitizeStatName (canonicalDocName r1) ++ "_total") =
      none) :
    (resolve r1 fb reg).1.fqName =
        "rdma_" ++ sanitizeStatName (canonicalDocName r1) ++ "_total"
    ∧ (resolve r2 fb (resolve r1 fb reg).2).1.fqName =
        "rdma_" ++ sanitizeStatName (canonicalDocName r2) ++ "_" ++
          toHex (fnv32 (canonicalDocName r2)) ++ "_total"
    ∧ (resolve r1 fb reg).1.fqName ≠
        (resolve r2 fb (resolve r1 fb reg).2).1.fqName
    ∧ lookupA (resolve r2 fb (resolve r1 fb reg).2).2.entries
          ((resolve r1 fb reg).1.fqName) =
        some (freshEntry r1 (canonicalDocName r1) fb reg)
    ∧ (freshEntry r1 (canonicalDocName r1) fb reg).stat = r1 := by
  have hr1 : resolve r1 fb reg =
      freshResolve r1 (canonicalDocName r1) fb reg :=
    metricDesc_fresh_none r1 _ fb reg hl1
  have hid1 : (resolve r1 fb reg).1.fqName =
      "rdma_" ++ sanitizeStatName (canonicalDocName r1) ++ "_total" := by
    rw [hr1]
    show freshName (canonicalDocName r1) reg = _
    exact buildMetricName_of_free _ _ hcand
  have hl2b : lookupA (resolve r1 fb reg).2.lookup r2 = none := by
    rw [hr1]
    show lookupA (insertA reg.lookup r1 (freshName (canonicalDocName r1)
      reg)) r2 = none
    rw [lookupA_insertA_ne _ _ _ _ (fun h => hne h.symm)]
    exact hl2
  have hr2 : resolve r2 fb (resolve r1 fb reg).2 =
      freshResolve r2 (canonicalDocName r2) fb (resolve r1 fb reg).2 :=
    metricDesc_fresh_none r2 _ fb _ hl2b
  have hfn1 : freshName (canonicalDocName r1) reg =
      "rdma_" ++ sanitizeStatName (canonicalDocName r1) ++ "_total" :=
    buildMetricName_of_free _ _ hcand
  have hce : lookupA (resolve r1 fb reg).2.entries
      ("rdma_" ++ sanitizeStatName (canonicalDocName r2) ++ "_total") =
      some (freshEntry r1 (canonicalDocName r1) fb reg) := by
    rw [hr1]
    show lookupA (insertA reg.entries (freshName (canonicalDocName r1) reg)
        (freshEntry r1 (canonicalDocName r1) fb reg)) _ = _
    rw [hfn1, ← hsan]
    exact lookupA_insertA_self _ _ _
  have hid2 : (resolve r2 fb (resolve r1 fb reg).2).1.fqName =
      "rdma_" ++ sanitizeStatName (canonicalDocName r2) ++ "_" ++
        toHex (fnv32 (canonicalDocName r2)) ++ "_total" := by
    rw [hr2]
    show freshName (canonicalDocName r2) (resolve r1 fb reg).2 = _
    refine buildMetricName_of_other _ _
      (freshEntry r1 (canonicalDocName r1) fb reg) hce ?_
    show canonicalDocName r1 ≠ canonicalDocName r2
    exact hdne
  refine ⟨hid1, hid2, ?_, ?_, rfl⟩
  · rw [hid1, hid2, hsan]
    exact cand_ne_ext (canonicalDocName r2)
  · rw [hr2]
    show lookupA (insertA (resolve r1 fb reg).2.entries
        (freshName (canonicalDocName r2) (resolve r1 fb reg).2)
        (freshEntry r2 (canonicalDocName r2) fb (resolve r1 fb reg).2))
      ((resolve r1 fb reg).1.fqName) = _
    have hfn2 : freshName (canonicalDocName r2) (resolve r1 fb reg).2 =
        "rdma_" ++ sanitizeStatName (canonicalDocName r2) ++ "_" ++
          toHex (fnv32 (canonicalDocName r2)) ++ "_total" := by
      refine buildMetricName_of_other _ _
        (freshEntry r1 (canonicalDocName r1) fb reg) hce ?_
      show canonicalDocName r1 ≠ canonicalDocName r2
      exact hdne
    rw [lookupA_insertA_ne]
    · rw [hid1, hr1]
      show lookupA (insertA reg.entries
        (freshName (canonicalDocName r1) reg)
        (freshEntry r1 (canonicalDocName r1) fb reg)) _ = _
      rw [← hfn1]
      exact lookupA_insertA_self _ _ _
    · rw [hid1, hfn2, hsan]
      exact cand_ne_ext (canonicalDocName r2)

/-- Witness for C2 at the concrete collision pair present in the
counter table: raw `vl15_dropped` (documented name `vl15_dropped`) and
raw `VL15_dropped` (documented name `VL15_dropped`), both sanitizing to
`vl15_dropped`. -/
theorem c2_collision_safety_witness :
    lookupA emptyRegistry.lookup "vl15_dropped" = none
    ∧ lookupA emptyRegistry.lookup "VL15_dropped" = none
    ∧ "vl15_dropped" ≠ "VL15_dropped"
    ∧ canonicalDocName "vl15_dropped" ≠ canonicalDocName "VL15_dropped"
    ∧ sanitizeStatName (canonicalDocName "vl15_dropped") =
        sanitizeStatName (canonicalDocName "VL15_dropped")
    ∧ lookupA emptyRegistry.entries
        ("rdma_" ++ sanitizeStatName (canonicalDocName "vl15_dropped") ++
          "_total") = none
    ∧ ((resolve "vl15_dropped" statFallbackHelp emptyRegistry).1.fqName =
        "rdma_" ++ sanitizeStatName (canonicalDocName "vl15_dropped") ++
          "_total"
      ∧ (resolve "VL15_dropped" statFallbackHelp
          (resolve "vl15_dropped" statFallbackHelp
            emptyRegistry).2).1.fqName =
        "rdma_" ++ sanitizeStatName (canonicalDocName "VL15_dropped") ++
          "_" ++ toHex (fnv32 (canonicalDocName "VL15_dropped")) ++ "_total"
      ∧ (resolve "vl15_dropped" statFallbackHelp emptyRegistry).1.fqName ≠
        (resolve "VL15_dropped" statFallbackHelp
          (resolve "vl15_dropped" statFallbackHelp
            emptyRegistry).2).1.fqName
      ∧ lookupA (resolve "VL15_dropped" statFallbackHelp
            (resolve "vl15_dropped" statFallbackHelp
              emptyRegistry).2).2.entries
          ((resolve "vl15_dropped" statFallbackHelp
            emptyRegistry).1.fqName) =
        some (freshEntry "vl15_dropped"
          (canonicalDocName "vl15_dropped") statFallbackHelp emptyRegistry)
      ∧ (freshEntry "vl15_dropped" (canonicalDocName "vl15_dropped")
          statFallbackHelp emptyRegistry).stat = "vl15_dropped") :=
  ⟨rfl, rfl, by decide, by decide, by decide, rfl,
    c2_collision_safety emptyRegistry statFallbackHelp
      "vl15_dropped" "VL15_dropped" rfl rfl (by decide) (by decide)
      (by decide) rfl⟩

theorem resolve_entries_isSome (reg : Registry) (r m fb : String)
    (hm : (lookupA reg.entries m).isSome) :
    (lookupA (resolve r fb reg).2.entries m).isSome := by
  unfold resolve
  cases hl : lookupA reg.lookup r with
  | some m2 =>
    cases he : lookupA reg.entries m2 with
    | some e =>
      rw [metricDesc_hit r _ fb m2 e reg hl he]
      exact hm
    | none =>
      rw [metricDesc_fresh_stale r _ fb m2 reg hl he]
      exact lookupA_insertA_isSome _ _ _ _ hm
  | none =>
    rw [metricDesc_fresh_none r _ fb reg hl]
    exact lookupA_insertA_isSome _ _ _ _ hm

/-- C3 counterexample: the claim fails as stated.  From a fresh
registry, registering raw name `Foo` allocates `rdma_foo_total` with
recorded raw name `Foo`; registering the distinct raw name `foo`, which
maps to the same documented name, replaces the entry: its recorded raw
name afterwards is `foo`, not the first raw name seen. -/
theorem c3_counterexample :
    "Foo" ≠ "foo"
    ∧ canonicalDocName "Foo" = canonicalDocName "foo"
    ∧ (lookupA (resolve "Foo" statFallbackHelp emptyRegistry).2.entries
        "rdma_foo_total").map (fun e => e.stat) = some "Foo"
    ∧ (lookupA (resolve "foo" statFallbackHelp
          (resolve "Foo" statFallbackHelp emptyRegistry).2).2.entries
        "rdma_foo_total").map (fun e => e.stat) = some "foo" :=
  ⟨by decide, by decide, by decide, by decide⟩

/-- C3 (amended): entries are never destroyed — an allocated identifier
stays allocated through any further resolution — and when a second,
different raw name with the same documented name registers, the entry
keeps its identifier, its descriptor value and its documented name, but
its recorded raw name becomes the second (most recent) raw name, not
the first. -/
theorem c3_amended_registry_entries (reg : Registry) (fb r1 r2 : String)
    (hl1 : lookupA reg.lookup r1 = none)
    (hl2 : lookupA reg.lookup r2 = none)
    (hne : r1 ≠ r2)
    (hdoc : canonicalDocName r1 = canonicalDocName r2) :
    (∀ (reg' : Registry) (r m fb' : String),
        (lookupA reg'.entries m).isSome →
        (lookupA (resolve r fb' reg').2.entries m).isSome)
    ∧ lookupA (resolve r1 fb reg).2.entries
          ((resolve r1 fb reg).1.fqName) =
        some (freshEntry r1 (canonicalDocName r1) fb reg)
    ∧ lookupA (resolve r2 fb (resolve r1 fb reg).2).2.entries
          ((resolve r1 fb reg).1.fqName) =
        some (freshEntry r2 (canonicalDocName r2) fb (resolve r1 fb reg).2)
    ∧ (freshEntry r1 (canonicalDocName r1) fb reg).stat = r1
    ∧ (freshEntry r2 (canonicalDocName r2) fb
        (resolve r1 fb reg).2).stat = r2
    ∧ (freshEntry r2 (canonicalDocName r2) fb (resolve r1 fb reg).2).desc =
        (freshEntry r1 (canonicalDocName r1) fb reg).desc
    ∧ (freshEntry r2 (canonicalDocName r2) fb
          (resolve r1 fb reg).2).docName =
        (freshEntry r1 (canonicalDocName r1) fb reg).docName
    ∧ (freshEntry r2 (canonicalDocName r2) fb
          (resolve r1 fb reg).2).metricName =
        (freshEntry r1 (canonicalDocName r1) fb reg).metricName := by
  have hr1 : resolve r1 fb reg =
      freshResolve r1 (canonicalDocName r1) fb reg :=
    metricDesc_fresh_none r1 _ fb reg hl1
  have hl2b : lookupA (resolve r1 fb reg).2.lookup r2 = none := by
    rw [hr1]
    show lookupA (insertA reg.lookup r1 _) r2 = none
    rw [lookupA_insertA_ne _ _ _ _ (fun h => hne h.symm)]
    exact hl2
  have hr2 : resolve r2 fb (resolve r1 fb reg).2 =
      freshResolve r2 (canonicalDocName r2) fb (resolve r1 fb reg).2 :=
    metricDesc_fresh_none r2 _ fb _ hl2b
  have hfneq : freshName (canonicalDocName r2) (resolve r1 fb reg).2 =
      freshName (canonicalDocName r1) reg := by
    rw [hr1]
    show buildMetricName (canonicalDocName r2)
        (insertA reg.entries
          (buildMetricName (canonicalDocName r1) reg.entries)
          (freshEntry r1 (canonicalDocName r1) fb reg)) = _
    rw [← hdoc]
    exact buildMetricName_stable (canonicalDocName r1) reg.entries
      (freshEntry r1 (canonicalDocName r1) fb reg) rfl
  refine ⟨fun reg' r m fb' => resolve_entries_isSome reg' r m fb',
    ?_, ?_, rfl, rfl, ?_, hdoc.symm, hfneq⟩
  · rw [hr1]
    exact lookupA_insertA_self _ _ _
  · rw [hr2]
    show lookupA (insertA (resolve r1 fb reg).2.entries
        (freshName (canonicalDocName r2) (resolve r1 fb reg).2)
        (freshEntry r2 (canonicalDocName r2) fb (resolve r1 fb reg).2))
      ((resolve r1 fb reg).1.fqName) =
      some (freshEntry r2 (canonicalDocName r2) fb (resolve r1 fb reg).2)
    have hid1 : (resolve r1 fb reg).1.fqName =
        freshName (canonicalDocName r1) reg := by rw [hr1]; rfl
    rw [hfneq, hid1]
    exact lookupA_insertA_self _ _ _
  · show freshDesc (canonicalDocName r2) fb (resolve r1 fb reg).2 =
      freshDesc (canonicalDocName r1) fb reg
    unfold freshDesc
    rw [hfneq, ← hdoc]

/-- Witness for the amended C3 theorem at a concrete input. -/
theorem c3_amended_registry_entries_witness :
    lookupA emptyRegistry.lookup "Foo" = none
    ∧ lookupA emptyRegistry.lookup "foo" = none
    ∧ "Foo" ≠ "foo"
    ∧ canonicalDocName "Foo" = canonicalDocName "foo"
    ∧ ((∀ (reg' : Registry) (r m fb' : String),
          (lookupA reg'.entries m).isSome →
          (lookupA (resolve r fb' reg').2.entries m).isSome)
      ∧ lookupA (resolve "Foo" statFallbackHelp emptyRegistry).2.entries
            ((resolve "Foo" statFallbackHelp emptyRegistry).1.fqName) =
          some (freshEntry "Foo" (canonicalDocName "Foo") statFallbackHelp
            emptyRegistry)
      ∧ lookupA (resolve "foo" statFallbackHelp
            (resolve "Foo" statFallbackHelp emptyRegistry).2).2.entries
            ((resolve "Foo" statFallbackHelp emptyRegistry).1.fqName) =
          some (freshEntry "foo" (canonicalDocName "foo") statFallbackHelp
            (resolve "Foo" statFallbackHelp emptyRegistry).2)
      ∧ (freshEntry "Foo" (canonicalDocName "Foo") statFallbackHelp
          emptyRegistry).stat = "Foo"
      ∧ (freshEntry "foo" (canonicalDocName "foo") statFallbackHelp
          (resolve "Foo" statFallbackHelp emptyRegistry).2).stat = "foo"
      ∧ (freshEntry "foo" (canonicalDocName "foo") statFallbackHelp
          (resolve "Foo" statFallbackHelp emptyRegistry).2).desc =
        (freshEntry "Foo" (canonicalDocName "Foo") statFallbackHelp
          emptyRegistry).desc
      ∧ (freshEntry "foo" (canonicalDocName "foo") statFallbackHelp
          (resolve "Foo" statFallbackHelp emptyRegistry).2).docName =
        (freshEntry "Foo" (canonicalDocName "Foo") statFallbackHelp
          emptyRegistry).docName
      ∧ (freshEntry "foo" (canonicalDocName "foo") statFallbackHelp
          (resolve "Foo" statFallbackHelp emptyRegistry).2).metricName =
        (freshEntry "Foo" (canonicalDocName "Foo") statFallbackHelp
          emptyRegistry).metricName) :=
  ⟨rfl, rfl, by decide, by decide,
    c3_amended_registry_entries emptyRegistry statFallbackHelp "Foo" "foo"
      rfl rfl (by decide) (by decide)⟩

/-- C4 counterexample: the claim fails as stated.  The raw name `foo`
registered in the primary family and in the secondary family from the
fresh collector state receives the SAME identifier string
(`rdma_foo_total`) in both families, not a different one. -/
theorem c4_counterexample :
    (statMetricDescS "foo" initialState).1.fqName =
      (hwMetricDescS "foo" initialState).1.fqName := by decide

/-- C4 (amended): the two families are kept in separate registries —
a primary resolution leaves the secondary registry (and the error
counters) untouched and vice versa — but both families build candidate
identifiers with the same `rdma_<sanitized>_total` template: the
identifier resolved for a raw name does not depend on the family
fallback help text, and on the fresh collector state the primary and
secondary identifiers for any raw name coincide. -/
theorem c4_amended_family_separation :
    (∀ (s : CollectorState) (stat : String),
        (statMetricDescS stat s).2.hwReg = s.hwReg
        ∧ (statMetricDescS stat s).2.scrapeErrors = s.scrapeErrors
        ∧ (statMetricDescS stat s).2.rocePFCScrapeErrors =
            s.rocePFCScrapeErrors
        ∧ (hwMetricDescS stat s).2.statReg = s.statReg
        ∧ (hwMetricDescS stat s).2.scrapeErrors = s.scrapeErrors
        ∧ (hwMetricDescS stat s).2.rocePFCScrapeErrors =
            s.rocePFCScrapeErrors)
    ∧ (∀ (stat fb1 fb2 : String) (reg : Registry),
        (metricDesc stat (canonicalDocName stat) fb1 reg).1.fqName =
          (metricDesc stat (canonicalDocName stat) fb2 reg).1.fqName)
    ∧ ∀ stat : String,
        (statMetricDescS stat initialState).1.fqName =
          (hwMetricDescS stat initialState).1.fqName := by
  have hfb : ∀ (stat fb1 fb2 : String) (reg : Registry),
      (metricDesc stat (canonicalDocName stat) fb1 reg).1.fqName =
        (metricDesc stat (canonicalDocName stat) fb2 reg).1.fqName := by
    intro stat fb1 fb2 reg
    cases hl : lookupA reg.lookup stat with
    | some m =>
      cases he : lookupA reg.entries m with
      | some e =>
        rw [metricDesc_hit stat _ fb1 m e reg hl he,
          metricDesc_hit stat _ fb2 m e reg hl he]
      | none =>
        rw [metricDesc_fresh_stale stat _ fb1 m reg hl he,
          metricDesc_fresh_stale stat _ fb2 m reg hl he]
        rfl
    | none =>
      rw [metricDesc_fresh_none stat _ fb1 reg hl,
        metricDesc_fresh_none stat _ fb2 reg hl]
      rfl
  refine ⟨fun s stat => ⟨rfl, rfl, rfl, rfl, rfl, rfl⟩, hfb, fun stat => ?_⟩
  exact hfb stat statFallbackHelp hwFallbackHelp emptyRegistry

theorem foldl_hom {α β γ : Type} (g : α → β) (F : α → γ → α)
    (G : β → γ → β) (h : ∀ a c, g (F a c) = G (g a) c) :
    ∀ (l : List γ) (a : α), g (l.foldl F a) = l.foldl G (g a) := by
  intro l
  induction l with
  | nil => intro a; rfl
  | cons c t ih => intro a; rw [List.foldl_cons, List.foldl_cons, ih, h]

theorem foldl_const {α β : Type} (l : List β) (m : α) :
    l.foldl (fun a _ => a) m = m := by
  induction l with
  | nil => rfl
  | cons c t ih => rw [List.foldl_cons]; exact ih

theorem foldl_withSE {γ : Type} (n : Nat)
    (F : (List Sample × CollectorState) → γ →
      (List Sample × CollectorState))
    (h : ∀ a c, F (a.1, withScrapeErrors n a.2) c =
      ((F a c).1, withScrapeErrors n (F a c).2)) :
    ∀ (l : List γ) (a : List Sample × CollectorState),
      l.foldl F (a.1, withScrapeErrors n a.2) =
        ((l.foldl F a).1, withScrapeErrors n (l.foldl F a).2) := by
  intro l
  induction l with
  | nil => intro a; rfl
  | cons c t ih =>
    intro a
    rw [List.foldl_cons, List.foldl_cons, h a c]
    exact ih (F a c)

theorem collectPortStats_withSE (dn pid : String)
    (stats : List (String × Nat)) (st : CollectorState) (n : Nat) :
    collectPortStats dn pid stats (withScrapeErrors n st) =
      ((collectPortStats dn pid stats st).1,
        withScrapeErrors n (collectPortStats dn pid stats st).2) := by
  unfold collectPortStats
  by_cases he : stats.isEmpty
  · simp only [if_pos he]
  · simp only [if_neg he]
    exact foldl_withSE n _ (fun a c => rfl) (sortedKeys stats) ([], st)

theorem collectPortHwStats_withSE (dn pid : String)
    (hwStats : List (String × Nat)) (st : CollectorState) (n : Nat) :
    collectPortHwStats dn pid hwStats (withScrapeErrors n st) =
      ((collectPortHwStats dn pid hwStats st).1,
        withScrapeErrors n (collectPortHwStats dn pid hwStats st).2) := by
  unfold collectPortHwStats
  by_cases he : hwStats.isEmpty
  · simp only [if_pos he]
  · simp only [if_neg he]
    exact foldl_withSE n _ (fun a c => rfl) (sortedKeys hwStats) ([], st)

theorem collectPort_withSE (nd : Option (String → NetDevResult))
    (dn : String) (acc : ScrapeAcc) (port : Port) (n : Nat) :
    collectPort nd dn
        ⟨acc.samples, withScrapeErrors n acc.state, acc.cache, acc.calls⟩
        port =
      ⟨(collectPort nd dn acc port).samples,
        withScrapeErrors n (collectPort nd dn acc port).state,
        (collectPort nd dn acc port).cache,
        (collectPort nd dn acc port).calls⟩ := by
  unfold collectPort
  simp only [collectPortStats_withSE, collectPortHwStats_withSE]
  rfl

theorem scrapeAcc_withSE (nd : Option (String → NetDevResult))
    (devs : List Device) (n : Nat) (acc : ScrapeAcc) :
    devs.foldl
        (fun acc device =>
          device.ports.foldl (collectPort nd device.name) acc)
        ⟨acc.samples, withScrapeErrors n acc.state, acc.cache, acc.calls⟩ =
      ⟨(devs.foldl (fun acc device =>
          device.ports.foldl (collectPort nd device.name) acc) acc).samples,
        withScrapeErrors n (devs.foldl (fun acc device =>
          device.ports.foldl (collectPort nd device.name) acc) acc).state,
        (devs.foldl (fun acc device =>
          device.ports.foldl (collectPort nd device.name) acc) acc).cache,
        (devs.foldl (fun acc device =>
          device.ports.foldl (collectPort nd device.name) acc) acc).calls⟩ := by
  have hg := foldl_hom
    (fun a : ScrapeAcc =>
      (⟨a.samples, withScrapeErrors n a.state, a.cache, a.calls⟩ : ScrapeAcc))
    (fun acc device =>
      device.ports.foldl (collectPort nd device.name) acc)
    (fun acc device =>
      device.ports.foldl (collectPort nd device.name) acc)
    (fun a d => by
      exact foldl_hom
        (fun a : ScrapeAcc =>
          (⟨a.samples, withScrapeErrors n a.state, a.cache,
            a.calls⟩ : ScrapeAcc))
        (collectPort nd d.name) (collectPort nd d.name)
        (fun a2 p => (collectPort_withSE nd d.name a2 p n).symm)
        d.ports a)
    devs acc
  exact hg.symm

/-- C5: when the device enumerator fails, the scrape-error counter is
incremented exactly once, the emitted output is exactly one sample
carrying that counter's current value — zero port-level series of any
kind — and a subsequent collection with a succeeding enumerator
produces the normal output again: the same port-level series, and the
same final registries and PFC counter, as a collection that had not
been preceded by the failure. -/
theorem c5_enumeration_failure (s : CollectorState)
    (nd : Option (String → NetDevResult)) (devs : List Device) :
    (collect (Except.error ()) nd s).state =
        withScrapeErrors (s.scrapeErrors + 1) s
    ∧ (collect (Except.error ()) nd s).samples =
        [Sample.counterSample "rdma_scrape_errors_total"
          (s.scrapeErrors + 1)]
    ∧ (collect (Except.error ()) nd s).samples.filter isPortSample = []
    ∧ (collect (Except.ok devs) nd
          (collect (Except.error ()) nd s).state).samples.filter
          isPortSample =
        (collect (Except.ok devs) nd s).samples.filter isPortSample
    ∧ (collect (Except.ok devs) nd
          (collect (Except.error ()) nd s).state).state =
        withScrapeErrors (s.scrapeErrors + 1)
          (collect (Except.ok devs) nd s).state := by
  have hfold := scrapeAcc_withSE nd devs (s.scrapeErrors + 1)
    (⟨[], s, [], []⟩ : ScrapeAcc)
  refine ⟨rfl, rfl, rfl, ?_, ?_⟩
  · show (List.filter isPortSample
      ((devs.foldl (fun acc device =>
          device.ports.foldl (collectPort nd device.name) acc)
        (⟨[], withScrapeErrors (s.scrapeErrors + 1) s, [],
          []⟩ : ScrapeAcc)).samples ++ _)) = _
    rw [show (⟨[], withScrapeErrors (s.scrapeErrors + 1) s, [],
        []⟩ : ScrapeAcc) =
      ⟨(⟨[], s, [], []⟩ : ScrapeAcc).samples,
        withScrapeErrors (s.scrapeErrors + 1)
          (⟨[], s, [], []⟩ : ScrapeAcc).state,
        (⟨[], s, [], []⟩ : ScrapeAcc).cache,
        (⟨[], s, [], []⟩ : ScrapeAcc).calls⟩ from rfl, hfold]
    show List.filter isPortSample (_ ++ [Sample.counterSample _ _,
      Sample.counterSample _ _]) = List.filter isPortSample
      (_ ++ [Sample.counterSample _ _, Sample.counterSample _ _])
    rw [List.filter_append, List.filter_append]
    rfl
  · show (devs.foldl (fun acc device =>
        device.ports.foldl (collectPort nd device.name) acc)
      (⟨[], withScrapeErrors (s.scrapeErrors + 1) s, [],
        []⟩ : ScrapeAcc)).state = _
    rw [show (⟨[], withScrapeErrors (s.scrapeErrors + 1) s, [],
        []⟩ : ScrapeAcc) =
      ⟨(⟨[], s, [], []⟩ : ScrapeAcc).samples,
        withScrapeErrors (s.scrapeErrors + 1)
          (⟨[], s, [], []⟩ : ScrapeAcc).state,
        (⟨[], s, [], []⟩ : ScrapeAcc).cache,
        (⟨[], s, [], []⟩ : ScrapeAcc).calls⟩ from rfl, hfold]
    rfl

theorem foldl_preserve {α β : Type} (P : α → Prop) (F : α → β → α)
    (h : ∀ a b, P a → P (F a b)) :
    ∀ (l : List β) (a : α), P a → P (l.foldl F a) := by
  intro l
  induction l with
  | nil => intro a ha; exact ha
  | cons c t ih =>
    intro a ha
    rw [List.foldl_cons]
    exact ih (F a c) (h a c ha)

theorem foldl_rocePFC {γ : Type}
    (F : (List Sample × CollectorState) → γ →
      (List Sample × CollectorState))
    (h : ∀ a c, (F a c).2.rocePFCScrapeErrors = a.2.rocePFCScrapeErrors) :
    ∀ (l : List γ) (a : List Sample × CollectorState),
      (l.foldl F a).2.rocePFCScrapeErrors = a.2.rocePFCScrapeErrors := by
  intro l
  induction l with
  | nil => intro a; rfl
  | cons c t ih =>
    intro a
    rw [List.foldl_cons, ih (F a c), h a c]

theorem collectPortStats_rocePFC (dn pid : String)
    (stats : List (String × Nat)) (st : CollectorState) :
    (collectPortStats dn pid stats st).2.rocePFCScrapeErrors =
      st.rocePFCScrapeErrors := by
  unfold collectPortStats
  by_cases he : stats.isEmpty
  · simp only [if_pos he]
  · simp only [if_neg he]
    exact foldl_rocePFC
      (fun (p : List Sample × CollectorState) name =>
        (p.1 ++ [Sample.metric (statMetricDescS name p.2).1
            ValueKind.counter ((lookupA stats name).getD 0) [dn, pid]],
          (statMetricDescS name p.2).2))
      (fun a c => rfl) (sortedKeys stats) ([], st)

theorem collectPortHwStats_rocePFC (dn pid : String)
    (hwStats : List (String × Nat)) (st : CollectorState) :
    (collectPortHwStats dn pid hwStats st).2.rocePFCScrapeErrors =
      st.rocePFCScrapeErrors := by
  unfold collectPortHwStats
  by_cases he : hwStats.isEmpty
  · simp only [if_pos he]
  · simp only [if_neg he]
    exact foldl_rocePFC
      (fun (p : List Sample × CollectorState) name =>
        (p.1 ++ [Sample.metric (hwMetricDescS name p.2).1
            ValueKind.counter ((lookupA hwStats name).getD 0) [dn, pid]],
          (hwMetricDescS name p.2).2))
      (fun a c => rfl) (sortedKeys hwStats) ([], st)

theorem readNetDev_inv (f : String → NetDevResult) (nd : String)
    (cache : NetDevCache) (pfc init : Nat) (calls : List String)
    (hinv : PFCInv f init cache pfc calls) :
    PFCInv f init (readNetDevStatsWithCache f nd cache pfc calls).cache
      (readNetDevStatsWithCache f nd cache pfc calls).pfcErrors
      (readNetDevStatsWithCache f nd cache pfc calls).calls := by
  obtain ⟨hnd, hcache, hcnt⟩ := hinv
  unfold readNetDevStatsWithCache
  cases hc : lookupA cache nd with
  | some e =>
    simp only [hc]
    exact ⟨hnd, hcache, hcnt⟩
  | none =>
    have hmem : nd ∉ calls := by
      intro hm
      have hx := hcache nd
      rw [hc, if_pos hm] at hx
      exact Option.noConfusion hx
    simp only [hc]
    refine ⟨?_, ?_, ?_⟩
    · simp [List.nodup_append, hnd, hmem]
    · intro m
      by_cases hm : m = nd
      · subst hm
        rw [lookupA_insertA_self]
        simp
      · rw [lookupA_insertA_ne _ _ _ _ hm]
        have hmm : (m ∈ calls ++ [nd]) ↔ m ∈ calls := by simp [hm]
        rw [hcache m]
        by_cases hmc : m ∈ calls
        · rw [if_pos hmc, if_pos (hmm.mpr hmc)]
        · rw [if_neg hmc, if_neg (fun hh => hmc (hmm.mp hh))]
    · cases hfe : f nd with
      | error e =>
        simp only [hfe]
        rw [List.filter_append, List.length_append, hcnt]
        have : List.filter (fun n => netDevResultIsError (f n)) [nd] =
            [nd] := by
          simp [List.filter, hfe, netDevResultIsError]
        rw [this]
        simp [Nat.add_assoc]
      | ok v =>
        simp only [hfe]
        rw [List.filter_append, List.length_append, hcnt]
        have : List.filter (fun n => netDevResultIsError (f n)) [nd] =
            [] := by
          simp [List.filter, hfe, netDevResultIsError]
        rw [this]
        simp

theorem collectPFC_inv (f : String → NetDevResult) (dn pid : String)
    (attr : PortAttributes) (cache : NetDevCache) (pfc init : Nat)
    (calls : List String) (hinv : PFCInv f init cache pfc calls) :
    PFCInv f init
      (collectRoCEPFCMetrics (some f) dn pid attr cache pfc calls).cache
      (collectRoCEPFCMetrics (some f) dn pid attr cache pfc calls).pfcErrors
      (collectRoCEPFCMetrics (some f) dn pid attr cache pfc calls).calls := by
  unfold collectRoCEPFCMetrics
  by_cases hg : attr.linkLayer ≠ "Ethernet" ∨ attr.netDev = ""
  · simp only [if_pos hg]
    exact hinv
  · simp only [if_neg hg]
    cases hr : (readNetDevStatsWithCache f attr.netDev cache pfc calls).res
      with
    | error e =>
      simp only [hr]
      exact readNetDev_inv f attr.netDev cache pfc init calls hinv
    | ok stats =>
      simp only [hr]
      exact readNetDev_inv f attr.netDev cache pfc init calls hinv

theorem collectPort_inv (f : String → NetDevResult) (dn : String)
    (acc : ScrapeAcc) (port : Port) (init : Nat)
    (hinv : PFCInvAcc f init acc) :
    PFCInvAcc f init (collectPort (some f) dn acc port) := by
  have h1 : (collectPortStats dn (toString port.id) port.stats
      acc.state).2.rocePFCScrapeErrors = acc.state.rocePFCScrapeErrors :=
    collectPortStats_rocePFC dn (toString port.id) port.stats acc.state
  have h2 : (collectPortHwStats dn (toString port.id) port.hwStats
      (collectPortStats dn (toString port.id) port.stats
        acc.state).2).2.rocePFCScrapeErrors =
      (collectPortStats dn (toString port.id) port.stats
        acc.state).2.rocePFCScrapeErrors :=
    collectPortHwStats_rocePFC dn (toString port.id) port.hwStats _
  show PFCInv f init
    (collectRoCEPFCMetrics (some f) dn (toString port.id) port.attributes
      acc.cache
      (collectPortHwStats dn (toString port.id) port.hwStats
        (collectPortStats dn (toString port.id) port.stats
          acc.state).2).2.rocePFCScrapeErrors
      acc.calls).cache
    (collectRoCEPFCMetrics (some f) dn (toString port.id) port.attributes
      acc.cache
      (collectPortHwStats dn (toString port.id) port.hwStats
        (collectPortStats dn (toString port.id) port.stats
          acc.state).2).2.rocePFCScrapeErrors
      acc.calls).pfcErrors
    (collectRoCEPFCMetrics (some f) dn (toString port.id) port.attributes
      acc.cache
      (collectPortHwStats dn (toString port.id) port.hwStats
        (collectPortStats dn (toString port.id) port.stats
          acc.state).2).2.rocePFCScrapeErrors
      acc.calls).calls
  rw [h2, h1]
  exact collectPFC_inv f dn (toString port.id) port.attributes acc.cache
    acc.state.rocePFCScrapeErrors init acc.calls hinv

set_option maxHeartbeats 1000000 in
/-- C6: within one collection pass with a configured secondary-stats
source, each distinct interface name is fetched at most once (the call
log has no duplicates), the fetch outcome — success or failure — is
cached for every fetched interface, and the PFC scrape-error counter is
incremented exactly once per distinct failing interface. -/
theorem c6_per_scrape_cache (f : String → NetDevResult)
    (devs : List Device) (s : CollectorState) :
    (collect (Except.ok devs) (some f) s).calls.Nodup
    ∧ (∀ n : String,
        lookupA (collect (Except.ok devs) (some f) s).cache n =
          if n ∈ (collect (Except.ok devs) (some f) s).calls then
            some (f n)
          else none)
    ∧ (collect (Except.ok devs) (some f) s).state.rocePFCScrapeErrors =
        s.rocePFCScrapeErrors +
          ((collect (Except.ok devs) (some f) s).calls.filter
            (fun n => netDevResultIsError (f n))).length := by
  have hstart : PFCInvAcc f s.rocePFCScrapeErrors
      (⟨[], s, [], []⟩ : ScrapeAcc) := by
    refine ⟨List.nodup_nil, ?_, by simp⟩
    intro n
    simp [lookupA]
  have hfold := foldl_preserve (PFCInvAcc f s.rocePFCScrapeErrors)
    (fun acc device =>
      device.ports.foldl (collectPort (some f) device.name) acc)
    (fun a d ha => foldl_preserve (PFCInvAcc f s.rocePFCScrapeErrors)
      (collectPort (some f) d.name)
      (fun a2 p h2 => collectPort_inv f d.name a2 p
        s.rocePFCScrapeErrors h2) d.ports a ha)
    devs _ hstart
  exact hfold

end RdmaExporter
